import Mathlib

/-!
Verification development for the `play-cards` scripting engine
(`src/engine/src/{lexer,parser,ast,rt,bytecode,vm}.rs`).

The Rust sources are shallowly embedded below: each Lean definition mirrors
the source item of the same (or lightly adapted) name.  Conventions:

* `Str` abbreviates `List Char` and stands for Rust `String` / `&str`.
* `Dec` is an executable exact-fraction stand-in for `f64`.  On the
  integer-valued decimals arising in every program considered here its
  addition, subtraction, multiplication and ordering coincide with IEEE
  doubles; rounding, NaN, infinities and signed zero are not modelled.
* Rust panics (`panic!`, `unwrap`, `todo!`, index/underflow aborts) are
  modelled as `Except` errors carrying a dedicated error constructor.
* `HashMap`s whose iteration order the engine observes are modelled as
  insertion-ordered association lists.
* Fuel parameters make loops and mutually recursive descent total; every
  theorem below supplies fuel that is provably sufficient.
-/

namespace Engine

abbrev Str := List Char

/-- Exact-fraction model of an `f64` payload: numerator over positive
denominator, kept unnormalised so that every operation is kernel-reducible.
All decimal literals produced by the lexer have denominator 1. -/
structure Dec where
  num : Int
  den : Int
  deriving DecidableEq

/-- Builds a decimal from an integer, mirroring an exactly represented
integral `f64`. -/
def Dec.ofInt (n : Int) : Dec := ⟨n, 1⟩

instance : OfNat Dec n := ⟨Dec.ofInt n⟩

/-- Model of `f64` addition on exactly represented values. -/
def Dec.add (a b : Dec) : Dec := ⟨a.num * b.den + b.num * a.den, a.den * b.den⟩

/-- Model of `f64` subtraction on exactly represented values. -/
def Dec.sub (a b : Dec) : Dec := ⟨a.num * b.den - b.num * a.den, a.den * b.den⟩

/-- Model of `f64` multiplication on exactly represented values. -/
def Dec.mul (a b : Dec) : Dec := ⟨a.num * b.num, a.den * b.den⟩

/-- Model of `f64` division on exactly represented values (division by zero,
which IEEE sends to an infinity, is outside the model). -/
def Dec.div (a b : Dec) : Dec :=
  if b.num < 0 then ⟨-(a.num * b.den), a.den * -b.num⟩ else ⟨a.num * b.den, a.den * b.num⟩

/-- Truncation toward zero, used by the remainder model. -/
def Dec.trunc (a : Dec) : Int := Int.tdiv a.num a.den

/-- Model of Rust `f64::%` (truncated remainder) on exactly represented
values. -/
def Dec.rem (a b : Dec) : Dec := a.sub (b.mul (Dec.ofInt ((a.div b).trunc)))

/-- Strict order on decimals (cross multiplication; denominators are kept
positive by construction). -/
def Dec.lt (a b : Dec) : Bool := a.num * b.den < b.num * a.den

/-- Numeric equality test on decimals. -/
def Dec.numEq (a b : Dec) : Bool := a.num * b.den = b.num * a.den

/-- Runtime value kinds, mirroring `rt.rs` `RtType`. -/
inductive RtType where
  | decimal
  | none
  | bool
  | string
  | function
  | list
  | player
  | inventory
  | card
  deriving DecidableEq

/-- Runtime value, mirroring `rt.rs` `RtRef` (tag plus payload).  The heap
indirection of strings/lists is replaced by by-value payloads, which is
adequate because the VM deep-copies owned payloads on every push/mov.
The `list` kind carries an opaque identifier: no engine path under
verification constructs or inspects list payloads. -/
inductive RtVal where
  | decimal (q : Dec)
  | bool (b : Bool)
  | null
  | string (s : Str)
  | function (idx : Nat)
  | list (id : Nat)
  | player (id : Nat)
  | inventory (id : Nat)
  | card (id : Nat)
  deriving DecidableEq

/-- Mirror of `RtRef::ty`. -/
def RtVal.ty : RtVal → RtType
  | .decimal _ => .decimal
  | .bool _ => .bool
  | .null => .none
  | .string _ => .string
  | .function _ => .function
  | .list _ => .list
  | .player _ => .player
  | .inventory _ => .inventory
  | .card _ => .card

/-- Model of `str::parse::<f64>` restricted to the digit strings the
engine can actually hand it (digits with at most one dot). -/
def parseF64 (s : Str) : Option Dec :=
  if s = [] then Option.none
  else if s.all Char.isDigit then
    some (Dec.ofInt (Int.ofNat (s.foldl (fun acc c => acc * 10 + c.toNat - '0'.toNat) 0)))
  else
    match s.splitOn '.' with
    | [intPart, fracPart] =>
      if intPart.all Char.isDigit ∧ fracPart.all Char.isDigit then
        let i := intPart.foldl (fun acc c => acc * 10 + c.toNat - '0'.toNat) 0
        let fr := fracPart.foldl (fun acc c => acc * 10 + c.toNat - '0'.toNat) 0
        some ⟨Int.ofNat (i * 10 ^ fracPart.length + fr), Int.ofNat (10 ^ fracPart.length)⟩
      else Option.none
    | _ => Option.none

/-- Mirror of `RtRef::get_decimal` (with its implicit conversions: booleans
become 1.0/0.0 and strings are lexically parsed). -/
def RtVal.getDecimal : RtVal → Option Dec
  | .decimal q => some q
  | .bool b => some (if b then Dec.ofInt 1 else Dec.ofInt 0)
  | .string s => parseF64 s
  | _ => Option.none

/-- Mirror of `RtRef::get_bool`. -/
def RtVal.getBool : RtVal → Option Bool
  | .bool b => some b
  | _ => Option.none

/-- Mirror of `rt.rs` `Ordering` (std ordering extended with `NotEqual`). -/
inductive Ordering where
  | Less
  | Equal
  | Greater
  | NotEqual
  deriving DecidableEq

/-- Composition of `f64::total_cmp` with `Ordering::from_std`, specialised
to the exactly represented decimals of this model. -/
def Dec.cmp (a b : Dec) : Ordering :=
  if a.lt b then .Less else if b.lt a then .Greater else .Equal

/-- Mirror of `span.rs` `Span` (the source field `end` is a Lean keyword and
is rendered `stop`). -/
structure Span where
  start : Nat
  stop : Nat
  deriving DecidableEq

/-- Modelled from the spec: `Span::single_token` is used by `lexer.rs` but
its definition is not under `src/`; following `Span::new_single`, it covers
the single position `idx`. -/
def Span.singleToken (idx : Nat) : Span := ⟨idx, idx + 1⟩

/-- Modelled from the spec: `Span::multi_token` is used by `lexer.rs` but its
definition is not under `src/`; it covers the half-open byte range given by
its two arguments. -/
def Span.multiToken (start stop : Nat) : Span := ⟨start, stop⟩

/-- Mirror of `lexer.rs` `Token`.  Keyword constructors carry a `Kw` suffix
because `let`, `if`, `else`, `while`, `return` and `fn` clash with Lean
keywords. -/
inductive Token where
  | comma
  | assign
  | eq
  | ne
  | gt
  | lt
  | ge
  | le
  | exclam
  | and
  | or
  | div
  | mul
  | mod
  | add
  | sub
  | openBrace
  | closeBrace
  | openCurly
  | closeCurly
  | fnKw
  | returnKw
  | letKw
  | whileKw
  | ifKw
  | elseKw
  | lit (s : Str)
  | charSeq (s : Str)
  | number (q : Dec)
  | bool (b : Bool)
  deriving DecidableEq

/-- Mirror of `lexer.rs` `TokenKind`. -/
inductive TokenKind where
  | comma
  | assign
  | eq
  | ne
  | gt
  | lt
  | ge
  | le
  | exclam
  | and
  | or
  | div
  | mul
  | mod
  | add
  | sub
  | openBrace
  | closeBrace
  | openCurly
  | closeCurly
  | fnKw
  | returnKw
  | letKw
  | whileKw
  | ifKw
  | elseKw
  | lit
  | charSeq
  | number
  | bool
  deriving DecidableEq

/-- Mirror of `Token::kind`. -/
def Token.kind : Token → TokenKind
  | .comma => .comma
  | .assign => .assign
  | .eq => .eq
  | .ne => .ne
  | .gt => .gt
  | .lt => .lt
  | .ge => .ge
  | .le => .le
  | .exclam => .exclam
  | .and => .and
  | .or => .or
  | .div => .div
  | .mul => .mul
  | .mod => .mod
  | .add => .add
  | .sub => .sub
  | .openBrace => .openBrace
  | .closeBrace => .closeBrace
  | .openCurly => .openCurly
  | .closeCurly => .closeCurly
  | .fnKw => .fnKw
  | .returnKw => .returnKw
  | .letKw => .letKw
  | .whileKw => .whileKw
  | .ifKw => .ifKw
  | .elseKw => .elseKw
  | .lit _ => .lit
  | .charSeq _ => .charSeq
  | .number _ => .number
  | .bool _ => .bool

/-- Mirror of `lexer.rs` `TokenVal`. -/
structure TokenVal where
  token : Token
  span : Span
  deriving DecidableEq

/-- Lexer failure values.  Each constructor corresponds to one
`diagnostic_builder_spanned!`/panic site in `lexer.rs`; the macro itself is
not under `src/`, and following the spec it simply produces a
span-annotated error. -/
inductive LexErr where
  | moreThanOneDot (span : Span)
  | expectedAmp (got : Option Char) (span : Span)
  | expectedPipe (got : Option Char) (span : Span)
  | unexpectedChar (c : Char) (span : Span)
  | numberParsePanic
  | outOfFuel
  deriving DecidableEq

/-- Mirror of `lexer.rs` `collect_string_until`, with the `FnMut` closure
state made explicit (`σ`) and the iterator replaced by the remaining
characters plus the running index. -/
def collectStringUntil (f : σ → Char → σ × Bool) :
    σ → Str → List Char → Nat → σ × Str × Option Char × List Char × Nat
  | st, buffer, [], idx => (st, buffer, Option.none, [], idx)
  | st, buffer, c :: rest, idx =>
    let (st', stop) := f st c
    if stop then (st', buffer, some c, rest, idx + 1)
    else collectStringUntil f st' (buffer ++ [c]) rest (idx + 1)

/-- Advance of the `LexingIter` model: consumes one character (if any) and
bumps the index, mirroring `LexingIter::next`. -/
def lexNext : List Char → Nat → Option Char × List Char × Nat
  | [], idx => (Option.none, [], idx)
  | c :: rest, idx => (some c, rest, idx + 1)

/-- Consumes a `//` line comment up to and including the newline, mirroring
the comment loop of `lex`. -/
def skipComment : List Char → Nat → Option Char × List Char × Nat
  | [], idx => (Option.none, [], idx)
  | c :: rest, idx =>
    if c = '\n' then (some c, rest, idx + 1) else skipComment rest (idx + 1)

/-- One keyword lookup, mirroring the literal match inside the alphabetic
branch of `lex`. -/
def keywordToken (lit : Str) : Token :=
  if lit = "true".data then .bool true
  else if lit = "false".data then .bool false
  else if lit = "fn".data then .fnKw
  else if lit = "return".data then .returnKw
  else if lit = "let".data then .letKw
  else if lit = "while".data then .whileKw
  else if lit = "if".data then .ifKw
  else if lit = "else".data then .elseKw
  else .lit lit

/-- Main lexer loop, mirroring the `while let Some(chr)` loop of
`lexer.rs::lex`.  `nextChr` is the character just pulled from the iterator,
`rest`/`idx` the iterator state, `fuel` a bound on the remaining loop
iterations (each iteration consumes at least one character, so
`src.length + 1` is always enough). -/
def lexGo : Nat → Option Char → List Char → Nat → List TokenVal →
    Except LexErr (List TokenVal)
  | _, Option.none, _, _, tokens => .ok tokens
  | 0, some _, _, _, _ => .error .outOfFuel
  | fuel + 1, some chr, rest, idx, tokens =>
    let startIdx := idx
    if chr = ' ' ∨ chr = '\r' ∨ chr = '\n' then
      let (c, rest', idx') := lexNext rest idx
      lexGo fuel c rest' idx' tokens
    else if chr.isDigit then
      let (dots, buffer, ret, rest', idx') :=
        collectStringUntil
          (fun dots c => (if c = '.' then dots + 1 else dots, !c.isDigit))
          0 [chr] rest idx
      if dots > 1 then .error (.moreThanOneDot (Span.singleToken idx'))
      else
        match parseF64 buffer with
        | Option.none => .error .numberParsePanic
        | some q =>
          lexGo fuel ret rest' idx'
            (tokens ++ [⟨.number q, Span.multiToken startIdx idx'⟩])
    else if chr.isAlpha then
      let (_, buffer, ret, rest', idx') :=
        collectStringUntil (fun u c => (u, !(c.isAlphanum ∨ c = '_'))) () [chr] rest idx
      lexGo fuel ret rest' idx'
        (tokens ++ [⟨keywordToken buffer, Span.multiToken startIdx idx'⟩])
    else if chr = '"' then
      let (_, buffer, _, rest', idx') :=
        collectStringUntil (fun u c => (u, c = '"')) () [] rest idx
      let (c, rest'', idx'') := lexNext rest' idx'
      lexGo fuel c rest'' idx''
        (tokens ++ [⟨.charSeq buffer, Span.multiToken startIdx idx''⟩])
    else if chr = '{' then
      let (c, rest', idx') := lexNext rest idx
      lexGo fuel c rest' idx' (tokens ++ [⟨.openCurly, Span.multiToken startIdx idx⟩])
    else if chr = '}' then
      let (c, rest', idx') := lexNext rest idx
      lexGo fuel c rest' idx' (tokens ++ [⟨.closeCurly, Span.multiToken startIdx idx⟩])
    else if chr = '(' then
      let (c, rest', idx') := lexNext rest idx
      lexGo fuel c rest' idx' (tokens ++ [⟨.openBrace, Span.multiToken startIdx idx⟩])
    else if chr = ')' then
      let (c, rest', idx') := lexNext rest idx
      lexGo fuel c rest' idx' (tokens ++ [⟨.closeBrace, Span.multiToken startIdx idx⟩])
    else if chr = ',' then
      let (c, rest', idx') := lexNext rest idx
      lexGo fuel c rest' idx' (tokens ++ [⟨.comma, Span.multiToken startIdx idx⟩])
    else if chr = '!' then
      let (c, rest', idx') := lexNext rest idx
      match c with
      | some '=' =>
        let (c', rest'', idx'') := lexNext rest' idx'
        lexGo fuel c' rest'' idx'' (tokens ++ [⟨.ne, Span.multiToken startIdx idx'⟩])
      | c =>
        lexGo fuel c rest' idx' (tokens ++ [⟨.exclam, Span.multiToken startIdx (idx' - 1)⟩])
    else if chr = '+' then
      let (c, rest', idx') := lexNext rest idx
      lexGo fuel c rest' idx' (tokens ++ [⟨.add, Span.multiToken startIdx idx⟩])
    else if chr = '-' then
      let (c, rest', idx') := lexNext rest idx
      lexGo fuel c rest' idx' (tokens ++ [⟨.sub, Span.multiToken startIdx idx⟩])
    else if chr = '*' then
      let (c, rest', idx') := lexNext rest idx
      lexGo fuel c rest' idx' (tokens ++ [⟨.mul, Span.multiToken startIdx idx⟩])
    else if chr = '%' then
      let (c, rest', idx') := lexNext rest idx
      lexGo fuel c rest' idx' (tokens ++ [⟨.mod, Span.multiToken startIdx idx⟩])
    else if chr = '/' then
      let (c, rest', idx') := lexNext rest idx
      match c with
      | some '/' =>
        let (c', rest'', idx'') := skipComment rest' idx'
        lexGo fuel c' rest'' idx'' tokens
      | c =>
        lexGo fuel c rest' idx' (tokens ++ [⟨.div, Span.multiToken startIdx (idx' - 1)⟩])
    else if chr = '=' then
      let (c, rest', idx') := lexNext rest idx
      match c with
      | some '=' =>
        let (c', rest'', idx'') := lexNext rest' idx'
        lexGo fuel c' rest'' idx'' (tokens ++ [⟨.eq, Span.multiToken startIdx idx'⟩])
      | c =>
        lexGo fuel c rest' idx' (tokens ++ [⟨.assign, Span.multiToken startIdx (idx' - 1)⟩])
    else if chr = '<' then
      let (c, rest', idx') := lexNext rest idx
      match c with
      | some '=' =>
        let (c', rest'', idx'') := lexNext rest' idx'
        lexGo fuel c' rest'' idx'' (tokens ++ [⟨.le, Span.multiToken startIdx idx'⟩])
      | c =>
        lexGo fuel c rest' idx' (tokens ++ [⟨.lt, Span.multiToken startIdx (idx' - 1)⟩])
    else if chr = '>' then
      let (c, rest', idx') := lexNext rest idx
      match c with
      | some '=' =>
        let (c', rest'', idx'') := lexNext rest' idx'
        lexGo fuel c' rest'' idx'' (tokens ++ [⟨.ge, Span.multiToken startIdx idx'⟩])
      | c =>
        lexGo fuel c rest' idx' (tokens ++ [⟨.gt, Span.multiToken startIdx (idx' - 1)⟩])
    else if chr = '&' then
      let (c, rest', idx') := lexNext rest idx
      match c with
      | some '&' =>
        let (c', rest'', idx'') := lexNext rest' idx'
        lexGo fuel c' rest'' idx'' (tokens ++ [⟨.and, Span.multiToken startIdx idx'⟩])
      | c => .error (.expectedAmp c (Span.singleToken idx'))
    else if chr = '|' then
      let (c, rest', idx') := lexNext rest idx
      match c with
      | some '|' =>
        let (c', rest'', idx'') := lexNext rest' idx'
        lexGo fuel c' rest'' idx'' (tokens ++ [⟨.or, Span.multiToken startIdx idx'⟩])
      | c => .error (.expectedPipe c (Span.singleToken idx'))
    else
      .error (.unexpectedChar chr (Span.singleToken idx))

/-- Mirror of `lexer.rs::lex`: primes the iterator and runs the main loop
with sufficient fuel. -/
def lex (src : Str) : Except LexErr (List TokenVal) :=
  let (c, rest, idx) := lexNext src 0
  lexGo (src.length + 1) c rest idx []

/-- Mirror of `ast.rs` `BinOpKind`. -/
inductive BinOpKind where
  | add
  | sub
  | mul
  | div
  | mod
  | and
  | or
  | eq
  | ne
  | gt
  | lt
  | ge
  | le
  deriving DecidableEq

/-- Mirror of `BinOpKind::priority`. -/
def BinOpKind.priority : BinOpKind → Nat
  | .add => 1
  | .sub => 1
  | .mul => 2
  | .div => 2
  | .mod => 2
  | .and => 0
  | .or => 0
  | .eq => 0
  | .ne => 0
  | .gt => 0
  | .lt => 0
  | .ge => 0
  | .le => 0

/-- Mirror of `ast.rs` `UnaryOpKind`. -/
inductive UnaryOpKind where
  | not
  deriving DecidableEq

/-- Mirror of `ast.rs` `AstNode`. -/
inductive AstNode where
  | callFunc (name : Str) (params : List AstNode)
  | unaryOp (val : AstNode) (op : UnaryOpKind)
  | binOp (lhs rhs : AstNode) (op : BinOpKind)
  | val (v : RtVal)
  | var (name : Str)

/-- Mirror of `parser.rs` `Stmt` (the `Return` variant is rendered `ret`,
`Loop` is rendered `loopStmt` to avoid clashing with Lean keywords). -/
inductive Stmt where
  | defineVar (name : Str) (val : AstNode) (reassign : Bool)
  | defineFn (name : Str) (args : List Str) (stmts : List Stmt)
  | callFunc (name : Str) (args : List AstNode)
  | loopStmt (stmts : List Stmt) (condition : AstNode)
  | conditional (seq : List (AstNode × List Stmt)) (fallback : List Stmt)
  | ret (val : Option AstNode)

/- The parser's mutable state is just the running index `idx`; the token
vector of the `Parser` struct never changes and is passed as a fixed
parameter `tv` to every function below. -/

/-- Recoverable parse-error sites of `parser.rs` (each constructor is one
`error(...)` call site; `parse_return` catches exactly these). -/
inductive PMsg where
  | missingCurlyLoop
  | missingCurlyIf
  | missingCurlyElse
  | missingCloseBraceCall
  | missingAssignLet
  | missingOpenBraceFn
  | missingCurlyFn
  | badVarOrFn
  | badStmtToken
  | missingCloseParen
  | unexpectedBinopToken
  deriving DecidableEq

/-- Panic sites of `parser.rs` (`unwrap`, `unreachable!`, `todo!`, and
`Vec::remove` out of bounds); these abort parsing and are not caught by
`parse_return`. -/
inductive PPanic where
  | unwrapNone
  | unreachableEof
  | unreachableBinop
  | todoOpenCurly
  | nodesRemoveOOB
  | finishedRemoveEmpty
  | finishedPopNone
  deriving DecidableEq

/-- Parser failure: a recoverable error, a panic, or exhausted fuel. -/
inductive PErr where
  | err (m : PMsg)
  | panic (p : PPanic)
  | outOfFuel
  deriving DecidableEq

/-- Mirror of `Parser::next`. -/
def pnext (tv : List TokenVal) (idx : Nat) : Option Token × Nat :=
  ((tv.get? idx).map TokenVal.token, idx + 1)

/-- Mirror of `Parser::look_ahead_by`. -/
def lookAheadBy (tv : List TokenVal) (idx : Nat) (off : Nat) : Option Token :=
  (tv.get? (idx + off)).map TokenVal.token

/-- Mirror of `Parser::look_ahead`. -/
def lookAhead (tv : List TokenVal) (idx : Nat) : Option Token := lookAheadBy tv idx 0

/-- Mirror of `Parser::try_eat`. -/
def tryEat (tv : List TokenVal) (idx : Nat) (kind : TokenKind) : Bool × Nat :=
  let ret := match tv.get? idx with
    | some v => v.token.kind == kind
    | Option.none => false
  if ret then (true, idx + 1) else (false, idx)

/-- Mirror of `Parser::parse_lit`. -/
def parseLit (tv : List TokenVal) (idx : Nat) : Option Str × Nat :=
  match pnext tv idx with
  | (some (.lit l), idx) => (some l, idx)
  | (_, idx) => (Option.none, idx)

/-- Mirror of the `highest_idx`/`highest_prio` scan inside
`try_parse_bin_op`: index of the first operator with priority strictly
greater than every earlier maximum (starting from priority 0). -/
def highestIdx (ops : List BinOpKind) : Nat :=
  (ops.foldl
    (fun acc op =>
      let (i, hi, hp) := acc
      if op.priority > hp then (i + 1, i, op.priority) else (i + 1, hi, hp))
    ((0 : Nat), (0 : Nat), (0 : Nat))).2.1

/-- Guarded `Vec::remove` model: the removed element together with the
remaining list, or `none` when the index is out of bounds (a Rust panic). -/
def listRemove (l : List α) (i : Nat) : Option (α × List α) :=
  match l.get? i with
  | some x => some (x, l.eraseIdx i)
  | Option.none => Option.none

/-- Mirror of the combination loop at the end of `try_parse_bin_op`:
repeatedly take the highest-priority operator (leftmost on ties), pull its
two operands — from `nodes` while non-empty, else from the front of
`finished` — and append the combined node to `finished`. -/
def combineLoop : Nat → List AstNode → List BinOpKind → List AstNode →
    Except PErr AstNode
  | _, _, [], finished =>
    match finished.getLast? with
    | some r => .ok r
    | Option.none => .error (.panic .finishedPopNone)
  | 0, _, _ :: _, _ => .error .outOfFuel
  | fuel + 1, nodes, op :: ops, finished =>
    let allOps := op :: ops
    let hi := highestIdx allOps
    let step : Except PErr (AstNode × List AstNode × List AstNode) :=
      if !nodes.isEmpty then
        match listRemove nodes hi with
        | some (x, nodesB) => .ok (x, nodesB, finished)
        | Option.none => .error (.panic .nodesRemoveOOB)
      else
        match listRemove finished 0 with
        | some (x, finishedB) => .ok (x, nodes, finishedB)
        | Option.none => .error (.panic .finishedRemoveEmpty)
    match step with
    | .error e => .error e
    | .ok (lhs, nodes, finished) =>
      let step2 : Except PErr (AstNode × List AstNode × List AstNode) :=
        if !nodes.isEmpty then
          match listRemove nodes hi with
          | some (x, nodesB) => .ok (x, nodesB, finished)
          | Option.none => .error (.panic .nodesRemoveOOB)
        else
          match listRemove finished 0 with
          | some (x, finishedB) => .ok (x, nodes, finishedB)
          | Option.none => .error (.panic .finishedRemoveEmpty)
      match step2 with
      | .error e => .error e
      | .ok (rhs, nodes, finished) =>
        match listRemove allOps hi with
        | some (theOp, opsB) =>
          combineLoop fuel nodes opsB (finished ++ [.binOp lhs rhs theOp])
        | Option.none => .error (.panic .nodesRemoveOOB)

mutual

/-- Mirror of `Parser::parse_loop`. -/
def parseLoop (tv : List TokenVal) : Nat → Nat → Except PErr (Stmt × Nat)
  | 0, _ => .error .outOfFuel
  | fuel + 1, idx => do
    let (cond, idx) ← tryParseBinOp tv fuel idx
    let (ok, idx) := tryEat tv idx .openCurly
    if !ok then .error (.err .missingCurlyLoop)
    else do
      let (stmts, idx) ← parseBlock tv fuel idx
      .ok (.loopStmt stmts cond, idx)
termination_by structural fuel => fuel

/-- Mirror of `Parser::parse_if` (the `loop { … }` over `else if` chains). -/
def parseIf (tv : List TokenVal) : Nat → Nat → Except PErr (Stmt × Nat)
  | 0, _ => .error .outOfFuel
  | fuel + 1, idx => do
    let (conds, fallback, idx) ← parseIfGo tv fuel idx []
    .ok (.conditional conds (fallback.getD []), idx)
termination_by structural fuel => fuel

/-- One iteration of the `parse_if` loop: a condition/body pair, then
either `else if` (continue), `else { … }` (fallback), or stop. -/
def parseIfGo (tv : List TokenVal) :
    Nat → Nat → List (AstNode × List Stmt) →
    Except PErr (List (AstNode × List Stmt) × Option (List Stmt) × Nat)
  | 0, _, _ => .error .outOfFuel
  | fuel + 1, idx, acc => do
    let (cond, idx) ← tryParseBinOp tv fuel idx
    let (ok, idx) := tryEat tv idx .openCurly
    if !ok then .error (.err .missingCurlyIf)
    else do
      let (stmts, idx) ← parseBlock tv fuel idx
      let acc := acc ++ [(cond, stmts)]
      let (isElse, idx) := tryEat tv idx .elseKw
      if isElse then
        let (isIf, idx) := tryEat tv idx .ifKw
        if isIf then parseIfGo tv fuel idx acc
        else
          let (ok, idx) := tryEat tv idx .openCurly
          if !ok then .error (.err .missingCurlyElse)
          else do
            let (stmts, idx) ← parseBlock tv fuel idx
            .ok (acc, some stmts, idx)
      else .ok (acc, Option.none, idx)
termination_by structural fuel => fuel

/-- Mirror of `Parser::parse_func_params`. -/
def parseFuncParams (tv : List TokenVal) : Nat → Nat → Except PErr (List AstNode × Nat)
  | 0, _ => .error .outOfFuel
  | fuel + 1, idx => do
    let (done, idx) := tryEat tv idx .closeBrace
    if done then .ok ([], idx)
    else do
      let (p, idx) ← parseAstNode tv fuel idx
      let (comma, idx) := tryEat tv idx .comma
      if comma then do
        let (ps, idx) ← parseFuncParams tv fuel idx
        .ok (p :: ps, idx)
      else
        let (close, idx) := tryEat tv idx .closeBrace
        if close then .ok ([p], idx)
        else .error (.err .missingCloseBraceCall)
termination_by structural fuel => fuel

/-- Mirror of `Parser::parse_ast_node`. -/
def parseAstNode (tv : List TokenVal) : Nat → Nat → Except PErr (AstNode × Nat)
  | 0, _ => .error .outOfFuel
  | fuel + 1, idx =>
    let isCall := match lookAheadBy tv idx 0, lookAheadBy tv idx 1 with
      | some (.lit _), some .openBrace => true
      | _, _ => false
    if isCall then
      match parseLit tv idx with
      | (some name, idx) => do
        let idx := idx + 1
        let (params, idx) ← parseFuncParams tv fuel idx
        .ok (.callFunc name params, idx)
      | (Option.none, _) => .error (.panic .unwrapNone)
    else
      tryParseBinOp tv fuel idx
termination_by structural fuel => fuel

/-- Mirror of `Parser::parse_let`. -/
def parseLet (tv : List TokenVal) : Nat → Nat → Except PErr (Stmt × Nat)
  | 0, _ => .error .outOfFuel
  | fuel + 1, idx =>
    match parseLit tv idx with
    | (Option.none, _) => .error (.panic .unwrapNone)
    | (some name, idx) =>
      let (ok, idx) := tryEat tv idx .assign
      if !ok then .error (.err .missingAssignLet)
      else do
        let (val, idx) ← parseAstNode tv fuel idx
        .ok (.defineVar name val false, idx)

/-- Mirror of `Parser::parse_fn`. -/
def parseFn (tv : List TokenVal) : Nat → Nat → Except PErr (Stmt × Nat)
  | 0, _ => .error .outOfFuel
  | fuel + 1, idx =>
    match parseLit tv idx with
    | (Option.none, _) => .error (.panic .unwrapNone)
    | (some name, idx) =>
      let (ok, idx) := tryEat tv idx .openBrace
      if !ok then .error (.err .missingOpenBraceFn)
      else do
        let (args, idx) ← parseFnArgs tv fuel idx
        let (ok, idx) := tryEat tv idx .openCurly
        if !ok then .error (.err .missingCurlyFn)
        else do
          let (body, idx) ← parseBlock tv fuel idx
          .ok (.defineFn name args body, idx)
termination_by structural fuel => fuel

/-- The parameter-collection loop of `parse_fn`
(`while !try_eat(CloseBrace) { args.push(parse_lit().unwrap()) }`). -/
def parseFnArgs (tv : List TokenVal) : Nat → Nat → Except PErr (List Str × Nat)
  | 0, _ => .error .outOfFuel
  | fuel + 1, idx =>
    let (done, idx) := tryEat tv idx .closeBrace
    if done then .ok ([], idx)
    else
      match parseLit tv idx with
      | (Option.none, _) => .error (.panic .unwrapNone)
      | (some a, idx) => do
        let (args, idx) ← parseFnArgs tv fuel idx
        .ok (a :: args, idx)
termination_by structural fuel => fuel

/-- Mirror of `Parser::parse_return` (the token index is rolled back and the
return treated as value-less when the expression parse fails with a
recoverable error). -/
def parseReturn (tv : List TokenVal) : Nat → Nat → Except PErr (Stmt × Nat)
  | 0, _ => .error .outOfFuel
  | fuel + 1, idx =>
    let currIdx := idx
    match parseAstNode tv fuel idx with
    | .ok (v, idx) => .ok (.ret (some v), idx)
    | .error (.err _) => .ok (.ret Option.none, currIdx)
    | .error e => .error e

/-- The statement-collection loop shared by block bodies
(`while !try_eat(CloseCurly) { stmts.push(parse_stmt()) }`). -/
def parseBlock (tv : List TokenVal) : Nat → Nat → Except PErr (List Stmt × Nat)
  | 0, _ => .error .outOfFuel
  | fuel + 1, idx =>
    let (done, idx) := tryEat tv idx .closeCurly
    if done then .ok ([], idx)
    else do
      let (s, idx) ← parseStmt tv fuel idx
      let (ss, idx) ← parseBlock tv fuel idx
      .ok (s :: ss, idx)
termination_by structural fuel => fuel

/-- Mirror of `Parser::parse_stmt`. -/
def parseStmt (tv : List TokenVal) : Nat → Nat → Except PErr (Stmt × Nat)
  | 0, _ => .error .outOfFuel
  | fuel + 1, idx =>
    match pnext tv idx with
    | (Option.none, _) => .error (.panic .unwrapNone)
    | (some tok, idx) =>
      match tok with
      | .openCurly => .error (.panic .todoOpenCurly)
      | .whileKw => parseLoop tv fuel idx
      | .ifKw => parseIf tv fuel idx
      | .returnKw => parseReturn tv fuel idx
      | .fnKw => parseFn tv fuel idx
      | .letKw => parseLet tv fuel idx
      | .lit var => do
        match pnext tv idx with
        | (some .openBrace, idx) => do
          let (args, idx) ← parseFuncParams tv fuel idx
          .ok (.callFunc var args, idx)
        | (some .assign, idx) => do
          let (val, idx) ← tryParseBinOp tv fuel idx
          .ok (.defineVar var val true, idx)
        | (_, _) => .error (.err .badVarOrFn)
      | _ => .error (.err .badStmtToken)
termination_by structural fuel => fuel

/-- Mirror of `Parser::try_parse_bin_op`. -/
def tryParseBinOp (tv : List TokenVal) : Nat → Nat → Except PErr (AstNode × Nat)
  | 0, _ => .error .outOfFuel
  | fuel + 1, idx =>
    match pnext tv idx with
    | (Option.none, _) => .error (.panic .unreachableEof)
    | (some tok, idx) =>
      let lhsRes : Except PErr (Option (AstNode × Nat) × AstNode × Nat) :=
        match tok with
        | .exclam =>
          match tryParseBinOp tv fuel idx with
          | .ok (v, idx) => .ok (some (.unaryOp v .not, idx), .val .null, idx)
          | .error e => .error e
        | .openBrace =>
          match tryParseBinOp tv fuel idx with
          | .ok (op, idx) =>
            let (ok, idx) := tryEat tv idx .closeBrace
            if !ok then .error (.err .missingCloseParen)
            else .ok (Option.none, op, idx)
          | .error e => .error e
        | .openCurly => .error (.panic .todoOpenCurly)
        | .lit v => .ok (Option.none, .var v, idx)
        | .charSeq v => .ok (Option.none, .val (.string v), idx)
        | .number v => .ok (Option.none, .val (.decimal v), idx)
        | .bool b => .ok (Option.none, .val (.bool b), idx)
        | _ => .error (.err .unexpectedBinopToken)
      match lhsRes with
      | .error e => .error e
      | .ok (some early, _, _) => .ok early
      | .ok (Option.none, lhs, idx) =>
        let isBinop := match (lookAhead tv idx).map Token.kind with
          | some .add | some .sub | some .and | some .div | some .mul
          | some .mod | some .or | some .eq | some .ne | some .gt
          | some .ge | some .lt | some .le => true
          | _ => false
        if !isBinop then .ok (lhs, idx)
        else
          match (lookAhead tv idx).map Token.kind with
          | some kind =>
            let binOpRes : Except PErr BinOpKind := match kind with
              | .eq => .ok .eq
              | .ne => .ok .ne
              | .gt => .ok .gt
              | .lt => .ok .lt
              | .ge => .ok .ge
              | .le => .ok .le
              | .and => .ok .and
              | .or => .ok .or
              | .div => .ok .div
              | .mul => .ok .mul
              | .mod => .ok .mod
              | .add => .ok .add
              | .sub => .ok .sub
              | _ => .error (.panic .unreachableBinop)
            match binOpRes with
            | .error e => .error e
            | .ok binOp =>
              let (_, idx) := pnext tv idx
              match tryParseBinOp tv fuel idx with
              | .error e => .error e
              | .ok (rhs, idx) =>
                let (nodes, ops) : List AstNode × List BinOpKind :=
                  match lhs with
                  | .binOp l r op => ([l, r], [op])
                  | other => ([other], [])
                let ops := ops ++ [binOp]
                let (nodes, ops) : List AstNode × List BinOpKind :=
                  match rhs with
                  | .binOp l r op => (nodes ++ [l, r], ops ++ [op])
                  | other => (nodes ++ [other], ops)
                match combineLoop (ops.length + 1) nodes ops [] with
                | .error e => .error e
                | .ok res => .ok (res, idx)
          | Option.none => .error (.panic .unreachableBinop)
termination_by structural fuel => fuel
end

/-- The statement loop of `parser.rs::parse`
(`while parser.idx < parser.tokens.len() { stmts.push(parser.parse_stmt()) }`). -/
def parseProgramGo (tv : List TokenVal) : Nat → Nat → Except PErr (List Stmt)
  | 0, _ => .error .outOfFuel
  | fuel + 1, idx =>
    if idx < tv.length then do
      let (s, idx) ← parseStmt tv fuel idx
      let ss ← parseProgramGo tv fuel idx
      .ok (s :: ss)
    else .ok []

/-- Mirror of `parser.rs::parse`, with fuel proportional to the input
(every parser step consumes a token or recurses into a strictly later
position, so this bound is generous). -/
def parse (tokens : List TokenVal) : Except PErr (List Stmt) :=
  parseProgramGo tokens (tokens.length * 2 + 4) 0

/-- Mirror of `bytecode.rs` `ByteCode`.  `UHalf` indices become `Nat` and
`isize` offsets become `Int` (no program considered here approaches the
32/64-bit bounds); `Return` is rendered `ret`. -/
inductive ByteCode where
  | push (val : RtVal)
  | pop (offset : Nat)
  | mov (srcIdx dstIdx : Nat)
  | call (fnIdx : Nat) (pushVal : Bool) (argIndices : List Nat)
  | add (arg1Idx arg2Idx : Nat)
  | sub (arg1Idx arg2Idx : Nat)
  | mul (arg1Idx arg2Idx : Nat)
  | div (arg1Idx arg2Idx : Nat)
  | mod (arg1Idx arg2Idx : Nat)
  | and (arg1Idx arg2Idx : Nat)
  | or (arg1Idx arg2Idx : Nat)
  | jump (relativeOff : Int)
  | jumpCond (relativeOff : Int) (argIdx : Nat)
  | compare (arg1Idx arg2Idx : Nat) (expected : Ordering)
  | ret (hasVal : Bool)
  | callLocal (relativeOff : Int)
  deriving DecidableEq

/-- Mirror of `bytecode.rs` `Function`, keeping the data the translator
reads (name, parameter list, variadic flag); the host callback itself is
supplied separately to the VM. -/
structure Function where
  params : List RtType
  varLen : Bool
  name : Str

/-- Mirror of `bytecode.rs` `ResolvableCall`. -/
structure ResolvableCall where
  args : Nat
  name : Str
  locationIdx : Nat

/-- Mirror of `bytecode.rs` `InternalFn`. -/
structure InternalFn where
  funcIdx : Nat
  code : List ByteCode
  params : List Str
  callResolution : List ResolvableCall

/-- Compile-time failures: each constructor is one panic site of
`bytecode.rs` (`panic!`, `expect`, `unwrap`, `todo!`, or a debug-mode
`usize` underflow). -/
inductive TransErr where
  | argCountMismatch (name : Str)
  | fnNotExist (name : Str)
  | noVarOrFn (name : Str)
  | varStackEmpty (name : Str)
  | nestedFnDef
  | inconsistentReturn
  | todoUnaryNot
  | stackIdxUnderflow
  | linkUnknownFn (name : Str)
  | linkArgCountMismatch
  | outOfFuel
  deriving DecidableEq

/-- Association-list lookup, modelling `HashMap::get`/`contains_key`. -/
def assocGet (m : List (Str × α)) (k : Str) : Option α :=
  match m with
  | [] => Option.none
  | (k', v) :: rest => if k' = k then some v else assocGet rest k

/-- Association-list insert, modelling `HashMap::insert` (replaces an
existing binding, otherwise appends; the engine observes the iteration
order only through lists that here stay in insertion order). -/
def assocInsert (m : List (Str × α)) (k : Str) (v : α) : List (Str × α) :=
  match m with
  | [] => [(k, v)]
  | (k', v') :: rest => if k' = k then (k, v) :: rest else (k', v') :: assocInsert rest k v

/-- Update of one binding, modelling `HashMap::get_mut`/`entry().or_default()`
followed by a mutation of the value. -/
def assocUpdate (m : List (Str × α)) (k : Str) (dflt : α) (f : α → α) : List (Str × α) :=
  match m with
  | [] => [(k, f dflt)]
  | (k', v) :: rest => if k' = k then (k, f v) :: rest else (k', v) :: assocUpdate rest k dflt f

/-- Mirror of the `Translator` struct state.  `marks` is a ghost field
formalising the claim "the translator's simulated depth at that
instruction": it records `(code position, stack_idx)` at the start of every
statement `translate_internal` lowers, with positions maintained under the
translator's own `code.insert` calls.  It never influences the emitted
code. -/
structure TransSt where
  code : List ByteCode
  internalFns : List (Str × InternalFn)
  stackIdx : Nat
  vars : List (Str × List Nat)
  callResolution : List ResolvableCall
  marks : List (Nat × Nat)

/-- The empty translator state of `translate_unit`. -/
def TransSt.init : TransSt :=
  { code := [], internalFns := [], stackIdx := 0, vars := [], callResolution := [], marks := [] }

/-- Appends `n` copies of one instruction, modelling the
`for _ in 0..n { self.code.push(…) }` loops. -/
def pushRepeat (st : TransSt) (ins : ByteCode) : Nat → TransSt
  | 0 => st
  | n + 1 => pushRepeat { st with code := st.code ++ [ins] } ins n

/-- List insertion at an index (appends when the index is past the end,
matching `Vec::insert` at `len`). -/
def listInsertAt (l : List α) (i : Nat) (x : α) : List α :=
  match i, l with
  | 0, l => x :: l
  | _ + 1, [] => [x]
  | i + 1, y :: rest => y :: listInsertAt rest i x

/-- Mirror of `self.code.insert(pos, ins)`, shifting the ghost marks that
sit at or after the insertion point. -/
def TransSt.insertCode (st : TransSt) (pos : Nat) (ins : ByteCode) : TransSt :=
  { st with
    code := listInsertAt st.code pos ins
    marks := st.marks.map (fun m => if pos ≤ m.1 then (m.1 + 1, m.2) else m) }

/-- Checked `usize` subtraction: Rust debug builds abort on underflow. -/
def natSubChecked (a b : Nat) : Except TransErr Nat :=
  if b ≤ a then .ok (a - b) else .error .stackIdxUnderflow

/-- Mirror of `Translator::resolve_fn_idx`. -/
def resolveFnIdx (fns : List Function) (name : Str) : Except TransErr Nat :=
  match fns.findIdx? (fun f => f.name = name) with
  | some i => .ok i
  | Option.none => .error (.fnNotExist name)

/-- Mirror of the argument-count gate in the `Stmt::CallFunc` arm of
`translate_internal`: mismatch unless the host function is variadic with
its mandatory prefix satisfied. -/
def argCountBad (f : Function) (argc : Nat) : Bool :=
  (!f.varLen || f.params.length > argc) && f.params.length != argc

mutual

/-- Mirror of `Translator::translate_node`; returns the stack index of the
result together with the updated `pops` counter (`&mut usize` in the
source).  The fuel argument (decremented on every nested call, always
sufficient for the bounds the wrappers compute) makes the recursion
structural so that it reduces definitionally. -/
def translateNode (fns : List Function) (localFns : List (Str × Bool)) :
    Nat → AstNode → Nat → TransSt → Except TransErr (Nat × Nat × TransSt)
  | 0, _, _, _ => .error .outOfFuel
  | fuel + 1, node, pops, st =>
  match node with
  | .callFunc name params =>
    match assocGet localFns name with
    | some hasVal => do
      let (_, callPops, st) ← translateNodeArgs fns localFns fuel params 0 st
      let st := { st with code := st.code ++ [.callLocal 0] }
      let offset := if hasVal then 1 else 0
      let st := pushRepeat st (.pop offset) callPops
      let st := { st with stackIdx := st.stackIdx + 1 }
      let newIdx ← natSubChecked st.stackIdx callPops
      let st := { st with stackIdx := newIdx }
      let res ← natSubChecked st.stackIdx 1
      .ok (res, pops + 1, st)
    | Option.none => do
      let funcIdx ← resolveFnIdx fns name
      let (indices, callPops, st) ← translateNodeArgs fns localFns fuel params 0 st
      let st := { st with code := st.code ++ [.call funcIdx true indices] }
      let st := pushRepeat st (.pop 1) callPops
      let st := { st with stackIdx := st.stackIdx + 1 }
      let newIdx ← natSubChecked st.stackIdx callPops
      let st := { st with stackIdx := newIdx }
      let res ← natSubChecked st.stackIdx 1
      .ok (res, pops + 1, st)
  | .binOp lhs rhs op => do
    let (idx1, localPops, st) ← translateNode fns localFns fuel lhs 0 st
    let (idx2, localPops, st) ← translateNode fns localFns fuel rhs localPops st
    let ins : ByteCode := match op with
      | .add => .add idx1 idx2
      | .sub => .sub idx1 idx2
      | .mul => .mul idx1 idx2
      | .div => .div idx1 idx2
      | .mod => .mod idx1 idx2
      | .and => .and idx1 idx2
      | .or => .or idx1 idx2
      | .eq => .compare idx1 idx2 .Equal
      | .ne => .compare idx1 idx2 .NotEqual
      | .gt => .compare idx1 idx2 .Greater
      | .lt => .compare idx1 idx2 .Less
      | .ge => .compare idx2 idx1 .Less
      | .le => .compare idx2 idx1 .Greater
    let st := { st with code := st.code ++ [ins] }
    let st := pushRepeat st (.pop 1) localPops
    let newIdx ← natSubChecked st.stackIdx localPops
    let st := { st with stackIdx := newIdx + 1 }
    .ok (st.stackIdx - 1, pops + 1, st)
  | .val v =>
    let st := { st with code := st.code ++ [.push v], stackIdx := st.stackIdx + 1 }
    .ok (st.stackIdx - 1, pops + 1, st)
  | .var name =>
    match assocGet st.vars name with
    | some indices =>
      match indices.getLast? with
      | some idx => .ok (idx, pops, st)
      | Option.none => .error (.varStackEmpty name)
    | Option.none =>
      match assocGet st.internalFns name with
      | some f =>
        let st := { st with
          code := st.code ++ [.push (.function f.funcIdx)]
          stackIdx := st.stackIdx + 1 }
        .ok (st.stackIdx - 1, pops + 1, st)
      | Option.none => .error (.noVarOrFn name)
  | .unaryOp _ op =>
    match op with
    | .not => .error .todoUnaryNot
termination_by structural fuel => fuel

/-- The argument loop of both `CallFunc` arms
(`for arg in args { indices.push(self.translate_node(arg, &mut pops)) }`). -/
def translateNodeArgs (fns : List Function) (localFns : List (Str × Bool)) :
    Nat → List AstNode → Nat → TransSt →
    Except TransErr (List Nat × Nat × TransSt)
  | 0, _, _, _ => .error .outOfFuel
  | fuel + 1, nodes, pops, st =>
  match nodes with
  | [] => .ok ([], pops, st)
  | n :: rest => do
    let (idx, pops, st) ← translateNode fns localFns fuel n pops st
    let (idxs, pops, st) ← translateNodeArgs fns localFns fuel rest pops st
    .ok (idx :: idxs, pops, st)
termination_by structural fuel => fuel
end

/-- Mirror of `bytecode.rs` `TranslationOutput`, extended with the ghost
statement marks of the unit (see `TransSt.marks`). -/
structure TranslationOutput where
  main : List ByteCode
  fns : List (Str × InternalFn)
  marks : List (Nat × Nat)

/-- Scan of the `optimize` loop: the first index `i ≥ 1` with a `Push` at
`i - 1` immediately followed by `Pop { offset: 0 }` at `i`. -/
def findPair : List ByteCode → Option Nat
  | .push _ :: .pop 0 :: _ => some 1
  | _ :: c :: rest => (findPair (c :: rest)).map (· + 1)
  | _ => Option.none

/-- Jump fix-up of `optimize` for one eliminated pair `(i - 1, i)`: a
`Jump`/`JumpCond` at position `j` with offset `rel` spans the half-open
range between `j` and its target; its offset shrinks (or grows, when
negative) by the number of eliminated instructions inside that range.  The
`as usize` cast of a negative target is modelled by the explicit
`% 2 ^ 64`. -/
def fixOff (j : Nat) (rel : Int) (i : Nat) : Int :=
  let other := (((j : Int) + rel) % (2 ^ 64)).toNat
  let lo := min j other
  let hi := max j other
  let containing : Int :=
    (if lo ≤ i ∧ i < hi then 1 else 0) + (if lo ≤ i - 1 ∧ i - 1 < hi then 1 else 0)
  if containing ≠ 0 then
    if rel < 0 then rel + containing else rel - containing
  else rel

/-- The inner `for j in 0..len` fix-up loop of `optimize`, with `j` the
position of the examined instruction. -/
def fixJumpsGo (i : Nat) : Nat → List ByteCode → List ByteCode
  | _, [] => []
  | j, c :: rest =>
    (match c with
      | .jump rel => .jump (fixOff j rel i)
      | .jumpCond rel arg => .jumpCond (fixOff j rel i) arg
      | other => other) :: fixJumpsGo i (j + 1) rest

/-- Jump fix-up pass of `optimize` for the pair at `(i - 1, i)`. -/
def fixJumps (code : List ByteCode) (i : Nat) : List ByteCode :=
  fixJumpsGo i 0 code

/-- Mirror of `Translator::optimize`: repeatedly eliminate a
`Push`/`Pop 0` pair (fixing jumps that straddle it) until none is left.
Each round removes two instructions, so fuel `code.length + 1` always
reaches the fixpoint. -/
def optimizeGo : Nat → List ByteCode → List ByteCode
  | 0, code => code
  | fuel + 1, code =>
    match findPair code with
    | Option.none => code
    | some i =>
      let fixed := fixJumps code i
      optimizeGo fuel ((fixed.eraseIdx i).eraseIdx (i - 1))

/-- Entry point of the peephole pass. -/
def optimize (code : List ByteCode) : List ByteCode :=
  optimizeGo (code.length + 1) code

mutual

/-- Mirror of `Translator::translate_internal`: translates a statement
block in its own scope, then unbinds the scope's variables and pops the net
stack growth.  All functions of this block carry structural fuel (always
sufficient for the bounds the wrappers compute) so that they reduce
definitionally. -/
def translateInternal (fns : List Function) (localFns : List (Str × Bool)) :
    Nat → List Stmt → TransSt → Except TransErr TransSt
  | 0, _, _ => .error .outOfFuel
  | fuel + 1, stmts, st => do
    let initialStackIdx := st.stackIdx
    let (scopeVars, st) ← translateStmts fns localFns fuel stmts [] st
    let st := scopeVars.foldl
      (fun st var => { st with vars := assocUpdate st.vars var [] (fun l => l.dropLast) }) st
    let stackDelta ← natSubChecked st.stackIdx initialStackIdx
    let st := pushRepeat st (.pop 0) stackDelta
    .ok { st with stackIdx := initialStackIdx }
termination_by structural fuel => fuel

/-- The statement loop of `translate_internal`; returns the variables the
current scope introduced.  Code after a `Return` is discarded (`break`). -/
def translateStmts (fns : List Function) (localFns : List (Str × Bool)) :
    Nat → List Stmt → List Str → TransSt → Except TransErr (List Str × TransSt)
  | 0, _, _, _ => .error .outOfFuel
  | fuel + 1, stmts, scopeVars, st =>
  match stmts with
  | [] => .ok (scopeVars, st)
  | stmt :: rest => do
    let st := { st with marks := st.marks ++ [(st.code.length, st.stackIdx)] }
    match stmt with
    | .defineVar name val reassign => do
      let (varIdx, pops, st) ← translateNode fns localFns fuel val 0 st
      if reassign then
        match assocGet st.vars name with
        | Option.none => .error (.noVarOrFn name)
        | some indices =>
          match indices.getLast? with
          | Option.none => .error (.varStackEmpty name)
          | some idx => do
            let st := { st with code := st.code ++ [.mov varIdx idx] }
            let st := pushRepeat st (.pop 0) pops
            let newIdx ← natSubChecked st.stackIdx pops
            translateStmts fns localFns fuel rest scopeVars { st with stackIdx := newIdx }
      else
        let st := { st with vars := assocUpdate st.vars name [] (fun l => l ++ [varIdx]) }
        translateStmts fns localFns fuel rest (scopeVars ++ [name]) st
    | .callFunc name args => do
      let fnIdx ← resolveFnIdx fns name
      match fns.get? fnIdx with
      | Option.none => .error (.fnNotExist name)
      | some f =>
        if argCountBad f args.length then .error (.argCountMismatch f.name)
        else do
          let (indices, pops, st) ← translateNodeArgs fns localFns fuel args 0 st
          let st := { st with code := st.code ++ [.call fnIdx false indices] }
          let st := pushRepeat st (.pop 0) pops
          let newIdx ← natSubChecked st.stackIdx pops
          translateStmts fns localFns fuel rest scopeVars { st with stackIdx := newIdx }
    | .loopStmt stmts2 condition => do
      let loopStartLen := st.code.length
      let st ← translateInternal fns localFns fuel stmts2 st
      let bodySize := st.code.length - loopStartLen
      let (argIdx, pops, st) ← translateNode fns localFns fuel condition 0 st
      let st := (List.range pops).foldl
        (fun st _ => st.insertCode loopStartLen (.pop 0)) st
      let st := st.insertCode loopStartLen (.jump ((bodySize : Int) + (pops : Int) + 1))
      let fullBodySize := st.code.length - loopStartLen
      let st := { st with
        code := st.code ++ [.jumpCond (-((fullBodySize : Int) - 1)) argIdx] }
      let st := pushRepeat st (.pop 0) pops
      let newIdx ← natSubChecked st.stackIdx 1
      translateStmts fns localFns fuel rest scopeVars { st with stackIdx := newIdx }
    | .conditional seq fallback => do
      let (jumpIndices, st) ← translateCondSeq fns localFns fuel seq [] st
      let st ← translateInternal fns localFns fuel fallback st
      let st := jumpIndices.reverse.foldl
        (fun st idx =>
          { st with code := st.code ++ [.jump ((st.code.length : Int) - (idx : Int))] })
        st
      translateStmts fns localFns fuel rest scopeVars st
    | .defineFn name args stmts2 => do
      let (output, callRes) ← translateUnit fns localFns fuel stmts2
      if !output.fns.isEmpty then .error .nestedFnDef
      else
        let internalFnIdx := st.internalFns.length
        let st := { st with
          internalFns := assocInsert st.internalFns name
            ⟨internalFnIdx, output.main, args, callRes⟩ }
        translateStmts fns localFns fuel rest scopeVars st
    | .ret val => do
      let st ← (match val with
        | some v => do
          let (_, _, st) ← translateNode fns localFns fuel v 0 st
          pure st
        | Option.none => pure st)
      let st := { st with code := st.code ++ [.ret val.isSome] }
      .ok (scopeVars, st)
termination_by structural fuel => fuel

/-- The `for (cond, stmts) in seq` loop of the `Stmt::Conditional` arm. -/
def translateCondSeq (fns : List Function) (localFns : List (Str × Bool)) :
    Nat → List (AstNode × List Stmt) → List Nat → TransSt →
    Except TransErr (List Nat × TransSt)
  | 0, _, _, _ => .error .outOfFuel
  | fuel + 1, seq, jumpIndices, st =>
  match seq with
  | [] => .ok (jumpIndices, st)
  | (cond, stmts2) :: rest => do
    let (condValIdx, pops, st) ← translateNode fns localFns fuel cond 0 st
    let condIdx := st.code.length
    let prevCodeSize := st.code.length
    let st := pushRepeat st (.pop 1) pops
    let newIdx ← natSubChecked st.stackIdx pops
    let st := { st with stackIdx := newIdx }
    let st ← translateInternal fns localFns fuel stmts2 st
    let codeSize := st.code.length - prevCodeSize
    let st := st.insertCode condIdx (.jumpCond (codeSize : Int) condValIdx)
    let jumpIndices := jumpIndices ++ [st.code.length]
    let st := pushRepeat st (.pop 1) pops
    translateCondSeq fns localFns fuel rest jumpIndices st
termination_by structural fuel => fuel

/-- Mirror of `bytecode.rs::translate_unit`. -/
def translateUnit (fns : List Function) (localFns : List (Str × Bool)) :
    Nat → List Stmt → Except TransErr (TranslationOutput × List ResolvableCall)
  | 0, _ => .error .outOfFuel
  | fuel + 1, stmts => do
    let st ← translateInternal fns localFns fuel stmts TransSt.init
    let optimized := optimize st.code
    .ok (⟨optimized, st.internalFns, st.marks⟩, st.callResolution)
termination_by structural fuel => fuel
end

/-- Mirror of `bytecode.rs::discover_fn_defs` (including its panic when a
function body mixes value and value-less returns). -/
def discoverFnDefs (stmts : List Stmt) : Except TransErr (List (Str × Bool)) :=
  stmts.foldlM
    (fun defs stmt =>
      match stmt with
      | .defineFn name _ body =>
        let rets := body.map (fun s =>
          match s with
          | .ret (some _) => true
          | _ => false)
        match rets.foldlM
          (fun acc v =>
            match acc with
            | Option.none => some (some v)
            | some curr => if curr ≠ v then Option.none else some (some curr)) Option.none with
        | Option.none => .error .inconsistentReturn
        | some hasVal => .ok (assocInsert defs name (hasVal.getD false))
      | _ => .ok defs)
    []

/-- Mirror of `bytecode.rs` `IntermediateFn`. -/
structure IntermediateFn where
  args : Nat
  offset : Nat
  callRes : List ResolvableCall

/-- One `CallLocal` patch of the linking loops in `translate`; the
`usize` subtraction of the relative offset is checked like the others. -/
def linkPatch (fnStack : List IntermediateFn) (fnLookup : List (Str × Nat))
    (base : Nat) (bc : List ByteCode) (res : ResolvableCall) :
    Except TransErr (List ByteCode) := do
  match assocGet fnLookup res.name with
  | Option.none => .error (.linkUnknownFn res.name)
  | some fi =>
    match fnStack.get? fi with
    | Option.none => .error (.linkUnknownFn res.name)
    | some f =>
      if f.args ≠ res.args then .error .linkArgCountMismatch
      else do
        let off ← natSubChecked f.offset res.locationIdx
        .ok (bc.set (base + res.locationIdx) (.callLocal (off : Int)))

/-- Mirror of `bytecode.rs::translate`: compile the top-level unit, append
every internal function's body, then rewrite the recorded `CallLocal`
placeholders.  `fuel` bounds the translator's recursion depth; the
pipeline wrappers pass a bound derived from the token count, which always
dominates the depth of the parsed tree. -/
def translate (stmts : List Stmt) (fns : List Function) (fuel : Nat) :
    Except TransErr (List ByteCode) := do
  let fnDefs ← discoverFnDefs stmts
  let (output, topRes) ← translateUnit fns fnDefs fuel stmts
  let (bc, fnStack, fnLookup) := output.fns.foldl
    (fun acc fun' =>
      let (bc, fnStack, fnLookup) := acc
      let fnStack := fnStack ++
        [(⟨fun'.2.params.length, bc.length, fun'.2.callResolution⟩ : IntermediateFn)]
      let fnLookup := assocInsert fnLookup fun'.1 (fnStack.length - 1)
      (bc ++ fun'.2.code, fnStack, fnLookup))
    (output.main, ([] : List IntermediateFn), ([] : List (Str × Nat)))
  let idxs := (List.range fnStack.length).reverse
  let bc ← idxs.foldlM
    (fun bc i =>
      match fnStack.get? i with
      | Option.none => .ok bc
      | some interm => interm.callRes.foldlM
          (fun bc res => linkPatch fnStack fnLookup interm.offset bc res) bc)
    bc
  let bc ← topRes.foldlM
    (fun bc res => linkPatch fnStack fnLookup 0 bc res) bc
  .ok bc

/-- `Stmt::Ret` discriminator used by the statement-sequencing lemma
`translateStmts_cons` (a `ret` discards the statements after it). -/
def Stmt.isRet : Stmt → Bool
  | .ret _ => true
  | _ => false

/-- Runtime abort sites of `vm.rs::run` (unwraps, asserts, `todo!`s and the
two `ByteCode` variants its `match` has no arm for). -/
inductive VmPanic where
  | popUnderflow
  | indexOOB
  | typeUnwrap
  | jumpCondType
  | compareTypeMismatch
  | compareTodo
  | cleanupTodo
  | cloneTodo
  | noArm
  deriving DecidableEq

/-- How a VM run ended. -/
inductive VmOutcome where
  | ok
  | panic (p : VmPanic)
  | outOfFuel
  deriving DecidableEq

/-- A registered host function: the signature the translator reads plus the
callback the VM invokes (mirror of the full `bytecode.rs` `Function`). -/
structure HostFn where
  sig : Function
  call : List RtVal → Option RtVal

/-- Result of a VM run.  `trace` is the observable effect sequence: one
`(function index, argument values)` entry per host call, in order.
`visits` is a ghost log of `(ip, stack depth)` at each executed
instruction, used to state the stack-parity claim; it does not influence
execution. -/
structure VmRes where
  outcome : VmOutcome
  stack : List RtVal
  trace : List (Nat × List RtVal)
  visits : List (Int × Nat)

/-- Mirror of `Vm::cleanup` (releases owned storage; `Cards` is a
`todo!`). -/
def vmCleanup (val : RtVal) : Except VmPanic Unit :=
  match val.ty with
  | .card => .error .cleanupTodo
  | _ => .ok ()

/-- Mirror of `Vm::clone_ref` (deep copy, the identity in this by-value
model; `Cards` is a `todo!`). -/
def cloneRef (val : RtVal) : Except VmPanic RtVal :=
  match val.ty with
  | .card => .error .cloneTodo
  | _ => .ok val

/-- Argument fetch loop of the `Call` arm
(`self.stack.get(*idx).unwrap()`). -/
def fetchArgs (stack : List RtVal) : List Nat → Except VmPanic (List RtVal)
  | [] => .ok []
  | idx :: rest => do
    match stack.get? idx with
    | Option.none => .error .indexOOB
    | some v => do
      let vs ← fetchArgs stack rest
      .ok (v :: vs)

/-- The ordering computation of the `Compare` arm (after the same-kind
assertion). -/
def compareVals (left right : RtVal) : Except VmPanic Ordering :=
  match left, right with
  | .decimal a, .decimal b => .ok (a.cmp b)
  | .null, _ => .ok .Equal
  | .bool _, _ => .ok (if left = right then .Equal else .NotEqual)
  | .string _, _ => .error .compareTodo
  | .player _, _ => .error .compareTodo
  | .inventory _, _ => .error .compareTodo
  | .card _, _ => .error .compareTodo
  | _, _ => .error .noArm

/-- Mirror of the `while let Some(curr) = self.code.get(self.ip)` loop of
`Vm::run`.  The instruction pointer is an integer: the source stores a
`usize` and computes jump targets through `as usize` casts, under which a
negative target wraps past the code length and likewise terminates the
loop. -/
def runGo (code : List ByteCode) (funcs : List HostFn) :
    Nat → Int → List RtVal → List (Nat × List RtVal) → List (Int × Nat) → VmRes
  | 0, _, stack, trace, visits => ⟨.outOfFuel, stack, trace, visits⟩
  | fuel + 1, ip, stack, trace, visits =>
    match (if 0 ≤ ip then code.get? ip.toNat else Option.none) with
    | Option.none => ⟨.ok, stack, trace, visits⟩
    | some curr =>
      let visits := visits ++ [(ip, stack.length)]
      match curr with
      | .push val =>
        match cloneRef val with
        | .error p => ⟨.panic p, stack, trace, visits⟩
        | .ok v => runGo code funcs fuel (ip + 1) (stack ++ [v]) trace visits
      | .pop offset =>
        if stack.length < offset + 1 then ⟨.panic .popUnderflow, stack, trace, visits⟩
        else
          let idx := stack.length - 1 - offset
          match stack.get? idx with
          | Option.none => ⟨.panic .indexOOB, stack, trace, visits⟩
          | some val =>
            match vmCleanup val with
            | .error p => ⟨.panic p, stack, trace, visits⟩
            | .ok _ => runGo code funcs fuel (ip + 1) (stack.eraseIdx idx) trace visits
      | .mov srcIdx dstIdx =>
        match stack.get? dstIdx, stack.get? srcIdx with
        | some prev, some srcVal =>
          match cloneRef srcVal with
          | .error p => ⟨.panic p, stack, trace, visits⟩
          | .ok v =>
            match vmCleanup prev with
            | .error p => ⟨.panic p, stack, trace, visits⟩
            | .ok _ => runGo code funcs fuel (ip + 1) (stack.set dstIdx v) trace visits
        | _, _ => ⟨.panic .indexOOB, stack, trace, visits⟩
      | .call fnIdx pushVal argIndices =>
        match funcs.get? fnIdx with
        | Option.none => ⟨.panic .indexOOB, stack, trace, visits⟩
        | some func =>
          match fetchArgs stack argIndices with
          | .error p => ⟨.panic p, stack, trace, visits⟩
          | .ok args =>
            let trace := trace ++ [(fnIdx, args)]
            let val := func.call args
            let stack := if pushVal then stack ++ [val.getD .null] else stack
            runGo code funcs fuel (ip + 1) stack trace visits
      | .add a1 a2 =>
        match stack.get? a1, stack.get? a2 with
        | some left, some right =>
          match left.getDecimal, right.getDecimal with
          | some l, some r =>
            runGo code funcs fuel (ip + 1) (stack ++ [.decimal (l.add r)]) trace visits
          | _, _ => ⟨.panic .typeUnwrap, stack, trace, visits⟩
        | _, _ => ⟨.panic .indexOOB, stack, trace, visits⟩
      | .sub a1 a2 =>
        match stack.get? a1, stack.get? a2 with
        | some left, some right =>
          match left.getDecimal, right.getDecimal with
          | some l, some r =>
            runGo code funcs fuel (ip + 1) (stack ++ [.decimal (l.sub r)]) trace visits
          | _, _ => ⟨.panic .typeUnwrap, stack, trace, visits⟩
        | _, _ => ⟨.panic .indexOOB, stack, trace, visits⟩
      | .mul a1 a2 =>
        match stack.get? a1, stack.get? a2 with
        | some left, some right =>
          match left.getDecimal, right.getDecimal with
          | some l, some r =>
            runGo code funcs fuel (ip + 1) (stack ++ [.decimal (l.mul r)]) trace visits
          | _, _ => ⟨.panic .typeUnwrap, stack, trace, visits⟩
        | _, _ => ⟨.panic .indexOOB, stack, trace, visits⟩
      | .div a1 a2 =>
        match stack.get? a1, stack.get? a2 with
        | some left, some right =>
          match left.getDecimal, right.getDecimal with
          | some l, some r =>
            runGo code funcs fuel (ip + 1) (stack ++ [.decimal (l.div r)]) trace visits
          | _, _ => ⟨.panic .typeUnwrap, stack, trace, visits⟩
        | _, _ => ⟨.panic .indexOOB, stack, trace, visits⟩
      | .mod a1 a2 =>
        match stack.get? a1, stack.get? a2 with
        | some left, some right =>
          match left.getDecimal, right.getDecimal with
          | some l, some r =>
            runGo code funcs fuel (ip + 1) (stack ++ [.decimal (l.rem r)]) trace visits
          | _, _ => ⟨.panic .typeUnwrap, stack, trace, visits⟩
        | _, _ => ⟨.panic .indexOOB, stack, trace, visits⟩
      | .and a1 a2 =>
        match stack.get? a1, stack.get? a2 with
        | some left, some right =>
          match left.getBool, right.getBool with
          | some l, some r =>
            runGo code funcs fuel (ip + 1) (stack ++ [.bool (l && r)]) trace visits
          | _, _ => ⟨.panic .typeUnwrap, stack, trace, visits⟩
        | _, _ => ⟨.panic .indexOOB, stack, trace, visits⟩
      | .or a1 a2 =>
        match stack.get? a1, stack.get? a2 with
        | some left, some right =>
          match left.getBool, right.getBool with
          | some l, some r =>
            runGo code funcs fuel (ip + 1) (stack ++ [.bool (l || r)]) trace visits
          | _, _ => ⟨.panic .typeUnwrap, stack, trace, visits⟩
        | _, _ => ⟨.panic .indexOOB, stack, trace, visits⟩
      | .jump rel =>
        runGo code funcs fuel (ip + rel) stack trace visits
      | .jumpCond rel argIdx =>
        match stack.get? argIdx with
        | Option.none => ⟨.panic .indexOOB, stack, trace, visits⟩
        | some val =>
          if val.ty ≠ .bool then ⟨.panic .jumpCondType, stack, trace, visits⟩
          else if val = .bool true then
            runGo code funcs fuel (ip + rel) stack trace visits
          else
            runGo code funcs fuel (ip + 1) stack trace visits
      | .compare a1 a2 expected =>
        match stack.get? a1, stack.get? a2 with
        | some left, some right =>
          if left.ty ≠ right.ty then ⟨.panic .compareTypeMismatch, stack, trace, visits⟩
          else
            match compareVals left right with
            | .error p => ⟨.panic p, stack, trace, visits⟩
            | .ok cmp =>
              runGo code funcs fuel (ip + 1) (stack ++ [.bool (expected = cmp)]) trace visits
        | _, _ => ⟨.panic .indexOOB, stack, trace, visits⟩
      | .ret _ => ⟨.panic .noArm, stack, trace, visits⟩
      | .callLocal _ => ⟨.panic .noArm, stack, trace, visits⟩

/-- Mirror of `Vm::run` starting from `Vm::new` (ip 0, empty stack). -/
def run (code : List ByteCode) (funcs : List HostFn) (fuel : Nat) : VmRes :=
  runGo code funcs fuel 0 [] [] []

/-- Pipeline failure: the stage that rejected the program. -/
inductive CompileErr where
  | lexErr (e : LexErr)
  | parseErr (e : PErr)
  | transErr (e : TransErr)
  deriving DecidableEq

/-- Decidable equality on `Except`, for evaluating pipeline results inside
`decide`. -/
instance [DecidableEq e] [DecidableEq a] : DecidableEq (Except e a) := fun x y =>
  match x, y with
  | .ok v, .ok w => if h : v = w then isTrue (by rw [h]) else isFalse (by simp [h])
  | .error v, .error w => if h : v = w then isTrue (by rw [h]) else isFalse (by simp [h])
  | .ok _, .error _ => isFalse (by simp)
  | .error _, .ok _ => isFalse (by simp)

/-- Lex-and-parse front end, used where a claim is about the produced
statement list. -/
def lexParse (src : Str) : Except CompileErr (List Stmt) :=
  match lex src with
  | .error e => .error (.lexErr e)
  | .ok toks =>
    match parse toks with
    | .error e => .error (.parseErr e)
    | .ok stmts => .ok stmts

/-- Full compilation pipeline: source text to linked bytecode
(`lex`, `parse`, `translate`).  The translator fuel is the constant 1000,
which dominates the recursion depth for every program in this development
(depth is bounded by the statement-tree size). -/
def compileProgram (src : Str) (fns : List Function) :
    Except CompileErr (List ByteCode) :=
  match lexParse src with
  | .error e => .error e
  | .ok stmts =>
    match translate stmts fns 1000 with
    | .error e => .error (.transErr e)
    | .ok bc => .ok bc

/-- Pipeline stopping after `translate_unit` of the top-level block,
exposing the unit's output (optimized main tape, internal functions, and
the ghost statement marks). -/
def compileUnit (src : Str) (fns : List Function) :
    Except CompileErr TranslationOutput :=
  match lexParse src with
  | .error e => .error e
  | .ok stmts =>
    match discoverFnDefs stmts with
    | .error e => .error (.transErr e)
    | .ok defs =>
      match translateUnit fns defs 1000 stmts with
      | .error e => .error (.transErr e)
      | .ok (out, _) => .ok out

/-- Pipeline stopping after `translate_internal` of the top-level block,
before the peephole pass: the raw bytecode tape. -/
def compileRaw (src : Str) (fns : List Function) :
    Except CompileErr (List ByteCode) :=
  match lexParse src with
  | .error e => .error e
  | .ok stmts =>
    match discoverFnDefs stmts with
    | .error e => .error (.transErr e)
    | .ok defs =>
      match translateInternal fns defs 1000 stmts TransSt.init with
      | .error e => .error (.transErr e)
      | .ok st => .ok st.code

/-- Expression-level parse used by the precedence claims: lex the text and
hand the token stream straight to `try_parse_bin_op`. -/
def parseExpr (src : Str) : Option AstNode :=
  match lex src with
  | .error _ => Option.none
  | .ok toks =>
    match tryParseBinOp toks (toks.length * 2 + 4) 0 with
    | .ok (node, _) => some node
    | .error _ => Option.none

/-- The `println` host function of `funcs.rs` as the embedder registers it:
first parameter a format string, variadic, no return value (the printing
itself is observable only through the VM trace). -/
def printlnSig : Function := ⟨[.string], true, "println".data⟩

/-- Host-side behaviour of `println`: returns `None`. -/
def printlnHost : HostFn := ⟨printlnSig, fun _ => Option.none⟩

/-- True when the tape contains no `Jump`/`JumpCond` instruction. -/
def jumpFreeB (code : List ByteCode) : Bool :=
  code.all (fun i =>
    match i with
    | .jump _ => false
    | .jumpCond _ _ => false
    | _ => true)

/-- True when the tape pushes no `Cards` immediate (whose clone/cleanup are
`todo!` in `vm.rs`). -/
def noCardPushB (code : List ByteCode) : Bool :=
  code.all (fun i =>
    match i with
    | .push (.card _) => false
    | _ => true)

/-- Proof-side machine state for straight-line execution: stack plus host
trace. -/
structure LinSt where
  stack : List RtVal
  trace : List (Nat × List RtVal)
  deriving DecidableEq

/-- Proof-side linear evaluator: executes a jump-free tape left to right
with exactly the per-instruction semantics of `runGo`, returning the final
state or the panic with the state at abort.  Used only to relate a tape
and its peephole-optimized form. -/
def evalLin (funcs : List HostFn) : List ByteCode → LinSt →
    Except (VmPanic × LinSt) LinSt
  | [], st => .ok st
  | curr :: rest, st =>
    let stack := st.stack
    let trace := st.trace
    match curr with
    | .push val =>
      match cloneRef val with
      | .error p => .error (p, st)
      | .ok v => evalLin funcs rest ⟨stack ++ [v], trace⟩
    | .pop offset =>
      if stack.length < offset + 1 then .error (.popUnderflow, st)
      else
        let idx := stack.length - 1 - offset
        match stack.get? idx with
        | Option.none => .error (.indexOOB, st)
        | some val =>
          match vmCleanup val with
          | .error p => .error (p, st)
          | .ok _ => evalLin funcs rest ⟨stack.eraseIdx idx, trace⟩
    | .mov srcIdx dstIdx =>
      match stack.get? dstIdx, stack.get? srcIdx with
      | some prev, some srcVal =>
        match cloneRef srcVal with
        | .error p => .error (p, st)
        | .ok v =>
          match vmCleanup prev with
          | .error p => .error (p, st)
          | .ok _ => evalLin funcs rest ⟨stack.set dstIdx v, trace⟩
      | _, _ => .error (.indexOOB, st)
    | .call fnIdx pushVal argIndices =>
      match funcs.get? fnIdx with
      | Option.none => .error (.indexOOB, st)
      | some func =>
        match fetchArgs stack argIndices with
        | .error p => .error (p, st)
        | .ok args =>
          let trace := trace ++ [(fnIdx, args)]
          let val := func.call args
          let stack := if pushVal then stack ++ [val.getD .null] else stack
          evalLin funcs rest ⟨stack, trace⟩
    | .add a1 a2 =>
      match stack.get? a1, stack.get? a2 with
      | some left, some right =>
        match left.getDecimal, right.getDecimal with
        | some l, some r => evalLin funcs rest ⟨stack ++ [.decimal (l.add r)], trace⟩
        | _, _ => .error (.typeUnwrap, st)
      | _, _ => .error (.indexOOB, st)
    | .sub a1 a2 =>
      match stack.get? a1, stack.get? a2 with
      | some left, some right =>
        match left.getDecimal, right.getDecimal with
        | some l, some r => evalLin funcs rest ⟨stack ++ [.decimal (l.sub r)], trace⟩
        | _, _ => .error (.typeUnwrap, st)
      | _, _ => .error (.indexOOB, st)
    | .mul a1 a2 =>
      match stack.get? a1, stack.get? a2 with
      | some left, some right =>
        match left.getDecimal, right.getDecimal with
        | some l, some r => evalLin funcs rest ⟨stack ++ [.decimal (l.mul r)], trace⟩
        | _, _ => .error (.typeUnwrap, st)
      | _, _ => .error (.indexOOB, st)
    | .div a1 a2 =>
      match stack.get? a1, stack.get? a2 with
      | some left, some right =>
        match left.getDecimal, right.getDecimal with
        | some l, some r => evalLin funcs rest ⟨stack ++ [.decimal (l.div r)], trace⟩
        | _, _ => .error (.typeUnwrap, st)
      | _, _ => .error (.indexOOB, st)
    | .mod a1 a2 =>
      match stack.get? a1, stack.get? a2 with
      | some left, some right =>
        match left.getDecimal, right.getDecimal with
        | some l, some r => evalLin funcs rest ⟨stack ++ [.decimal (l.rem r)], trace⟩
        | _, _ => .error (.typeUnwrap, st)
      | _, _ => .error (.indexOOB, st)
    | .and a1 a2 =>
      match stack.get? a1, stack.get? a2 with
      | some left, some right =>
        match left.getBool, right.getBool with
        | some l, some r => evalLin funcs rest ⟨stack ++ [.bool (l && r)], trace⟩
        | _, _ => .error (.typeUnwrap, st)
      | _, _ => .error (.indexOOB, st)
    | .or a1 a2 =>
      match stack.get? a1, stack.get? a2 with
      | some left, some right =>
        match left.getBool, right.getBool with
        | some l, some r => evalLin funcs rest ⟨stack ++ [.bool (l || r)], trace⟩
        | _, _ => .error (.typeUnwrap, st)
      | _, _ => .error (.indexOOB, st)
    | .jump _ => .error (.noArm, st)
    | .jumpCond _ _ => .error (.noArm, st)
    | .compare a1 a2 expected =>
      match stack.get? a1, stack.get? a2 with
      | some left, some right =>
        if left.ty ≠ right.ty then .error (.compareTypeMismatch, st)
        else
          match compareVals left right with
          | .error p => .error (p, st)
          | .ok cmp => evalLin funcs rest ⟨stack ++ [.bool (expected = cmp)], trace⟩
      | _, _ => .error (.indexOOB, st)
    | .ret _ => .error (.noArm, st)
    | .callLocal _ => .error (.noArm, st)

/-- Agreement between a fuelled VM result and a linear-evaluation result:
same termination kind, same final stack, same host trace. -/
def linAgrees (r : VmRes) (e : Except (VmPanic × LinSt) LinSt) : Prop :=
  match e with
  | .ok st => r.outcome = .ok ∧ r.stack = st.stack ∧ r.trace = st.trace
  | .error (p, st) => r.outcome = .panic p ∧ r.stack = st.stack ∧ r.trace = st.trace

/-- Integral decimal runtime value. -/
def dint (n : Int) : RtVal := .decimal (Dec.ofInt n)

/-- The format string `"{}"`. -/
def fmtStr : Str := "\x7b\x7d".data

/-- Scenario S2 of the spec: `let i = 0 while i < 3 { println("{}", i) i = i + 1 }`. -/
def s2Src : Str :=
  "let i = 0 while i < 3 \x7b println(\"\x7b\x7d\", i) i = i + 1 \x7d".data

/-- Bytecode the translator produces for `s2Src` (checked below). -/
def s2Code : List ByteCode :=
  [.push (dint 0), .jump 10, .pop 0, .push (.string fmtStr), .call 0 false [1, 0],
   .pop 0, .push (dint 1), .add 0 1, .pop 1, .mov 1 0, .pop 0, .push (dint 3),
   .compare 0 1 .Less, .pop 1, .jumpCond (-12) 1, .pop 0, .pop 0]

/-- Scenario S3 of the spec:
`let x = 2 if x == 1 { println("a") } else if x == 2 { println("b") } else { println("c") }`. -/
def s3Src : Str :=
  "let x = 2 if x == 1 \x7b println(\"a\") \x7d else if x == 2 \x7b println(\"b\") \x7d else \x7b println(\"c\") \x7d".data

/-- Bytecode the translator produces for `s3Src` (checked below). -/
def s3Code : List ByteCode :=
  [.push (dint 2), .push (dint 1), .compare 0 1 .Equal, .pop 1, .jumpCond 4 1,
   .pop 1, .push (.string ['a']), .call 0 false [1], .pop 0, .pop 1,
   .push (dint 2), .compare 0 1 .Equal, .pop 1, .jumpCond 4 1, .pop 1,
   .push (.string ['b']), .call 0 false [1], .pop 0, .pop 1,
   .push (.string ['c']), .call 0 false [1], .pop 0, .jump 4, .jump 14, .pop 0]

/-- Stack-parity probe program: `let x = 1 let y = 2 if x == 1 { x = y }`. -/
def c1Src : Str := "let x = 1 let y = 2 if x == 1 \x7b x = y \x7d".data

/-- Bytecode the translator produces for `c1Src` (checked below). -/
def c1Code : List ByteCode :=
  [.push (dint 1), .push (dint 2), .push (dint 1), .compare 0 2 .Equal, .pop 1,
   .jumpCond 2 2, .pop 1, .mov 1 0, .pop 1, .jump 1, .pop 0, .pop 0]

/-- Statement marks the translator records for `c1Src`: position of each
statement's first instruction paired with the simulated depth there. -/
def c1Marks : List (Nat × Nat) := [(0, 0), (1, 1), (2, 2), (7, 2)]

/-- The `(ip, depth)` log of executing `c1Code`. -/
def c1Visits : List (Int × Nat) :=
  [(0, 0), (1, 1), (2, 2), (3, 3), (4, 4), (5, 3), (7, 3), (8, 3), (9, 2),
   (10, 2), (11, 1)]

/-- Peephole probe program:
`let b = true if b { let x = 5 } else { println("f") } println("A") println("B")`. -/
def c2Src : Str :=
  "let b = true if b \x7b let x = 5 \x7d else \x7b println(\"f\") \x7d println(\"A\") println(\"B\")".data

/-- Raw (pre-optimization) tape of `c2Src` (checked below). -/
def c2Raw : List ByteCode :=
  [.push (.bool true), .jumpCond 2 0, .push (dint 5), .pop 0,
   .push (.string ['f']), .call 0 false [1], .pop 0, .jump 3,
   .push (.string ['A']), .call 0 false [1], .pop 0,
   .push (.string ['B']), .call 0 false [1], .pop 0, .pop 0]

/-- Peephole-optimized form of `c2Raw` (checked below). -/
def c2Opt : List ByteCode :=
  [.push (.bool true), .jumpCond 1 0,
   .push (.string ['f']), .call 0 false [1], .pop 0, .jump 3,
   .push (.string ['A']), .call 0 false [1], .pop 0,
   .push (.string ['B']), .call 0 false [1], .pop 0, .pop 0]

/-- Comparison probe program: `println("{}", 1 >= 1) println("{}", 1 <= 1)`. -/
def geLeSrc : Str :=
  "println(\"\x7b\x7d\", 1 >= 1) println(\"\x7b\x7d\", 1 <= 1)".data

/-- Bytecode the translator produces for `geLeSrc` (checked below). -/
def geLeCode : List ByteCode :=
  [.push (.string fmtStr), .push (dint 1), .push (dint 1), .compare 2 1 .Less,
   .pop 1, .pop 1, .call 0 false [0, 1], .pop 0, .pop 0,
   .push (.string fmtStr), .push (dint 1), .push (dint 1), .compare 2 1 .Greater,
   .pop 1, .pop 1, .call 0 false [0, 1], .pop 0, .pop 0]

/-- A host function taking exactly one decimal, not variadic. -/
def hSig : Function := ⟨[.decimal], false, "h".data⟩

/-- Expression-position call with one argument too many: `let x = h(1, 2)`. -/
def c7ExprSrc : Str := "let x = h(1, 2)".data

/-- Bytecode the translator produces for `c7ExprSrc` (checked below). -/
def c7ExprCode : List ByteCode :=
  [.push (dint 1), .push (dint 2), .call 0 true [0, 1], .pop 1, .pop 1, .pop 0]

/-- Scenario S5 of the spec: `fn f(a) { return a } f(1, 2)`. -/
def s5Src : Str := "fn f(a) \x7b return a \x7d f(1, 2)".data

/-- Unary-not probe program: `let x = ! true`. -/
def c10Src : Str := "let x = ! true".data

/-- Statements the parser produces for `s3Src` (checked below). -/
def s3Stmts : List Stmt :=
  [.defineVar "x".data (.val (dint 2)) false,
   .conditional
     [(.binOp (.var "x".data) (.val (dint 1)) .eq,
       [.callFunc "println".data [.val (.string ['a'])]]),
      (.binOp (.var "x".data) (.val (dint 2)) .eq,
       [.callFunc "println".data [.val (.string ['b'])]])]
     [.callFunc "println".data [.val (.string ['c'])]]]

/-- Statements the parser produces for `c1Src` (checked below). -/
def c1Stmts : List Stmt :=
  [.defineVar "x".data (.val (dint 1)) false,
   .defineVar "y".data (.val (dint 2)) false,
   .conditional
     [(.binOp (.var "x".data) (.val (dint 1)) .eq,
       [.defineVar "x".data (.var "y".data) true])] []]

/-- Statements the parser produces for `c2Src` (checked below). -/
def c2Stmts : List Stmt :=
  [.defineVar "b".data (.val (.bool true)) false,
   .conditional [(.var "b".data, [.defineVar "x".data (.val (dint 5)) false])]
     [.callFunc "println".data [.val (.string ['f'])]],
   .callFunc "println".data [.val (.string ['A'])],
   .callFunc "println".data [.val (.string ['B'])]]

/-- C4: for scenario S2 the translator emits exactly `s2Code` — a forward
`Jump` at index 1 landing on the condition code at index 11 (placed after
the body region, which starts at index 2 with the per-iteration cleanup
`Pop`), the body, the condition, and a backward `JumpCond` at index 14
landing on index 2 exactly when the condition is true.  Running it calls
`println` exactly three times, with `("{}", 0)`, `("{}", 1)`, `("{}", 2)`
in order, finishes normally with an empty stack, and evaluates the
condition (`Compare` at index 12) exactly four times: once before the first
iteration and once per iteration. -/
theorem c4_while_scenario :
    compileProgram s2Src [printlnSig] = .ok s2Code ∧
    s2Code.get? 1 = some (.jump 10) ∧
    s2Code.get? 14 = some (.jumpCond (-12) 1) ∧
    (run s2Code [printlnHost] 200).outcome = .ok ∧
    (run s2Code [printlnHost] 200).stack = [] ∧
    (run s2Code [printlnHost] 200).trace =
      [(0, [.string fmtStr, dint 0]), (0, [.string fmtStr, dint 1]),
       (0, [.string fmtStr, dint 2])] ∧
    ((run s2Code [printlnHost] 200).visits.filter (fun v => v.1 == 12)).length = 4 := by
  refine ⟨?_, ?_, ?_, ?_, ?_, ?_, ?_⟩ <;> decide

/-- Processing a statement list is processing its head alone (with the same
fuel) followed by the rest with one unit of fuel less, for non-`ret` heads. -/
theorem translateStmts_cons (fns : List Function) (l : List (Str × Bool)) (n : Nat)
    (s : Stmt) (rest : List Stmt) (sv : List Str) (st : TransSt) (h : s.isRet = false) :
    translateStmts fns l (n + 2) (s :: rest) sv st =
      (translateStmts fns l (n + 2) [s] sv st).bind
        (fun r => translateStmts fns l (n + 1) rest r.1 r.2) := by
  have e2 : (n + 2 : Nat) = Nat.succ (Nat.succ n) := rfl
  have e1 : (n + 1 : Nat) = Nat.succ n := rfl
  rw [e2, e1]
  cases s with
  | ret v => simp [Stmt.isRet] at h
  | defineVar name val reassign =>
    conv_lhs => rw [translateStmts.eq_def]
    conv_rhs => rw [translateStmts.eq_def]
    simp only [translateStmts.eq_2, bind, Except.bind]
    repeat (first | rfl | split)
  | callFunc name args =>
    conv_lhs => rw [translateStmts.eq_def]
    conv_rhs => rw [translateStmts.eq_def]
    simp only [translateStmts.eq_2, bind, Except.bind]
    repeat (first | rfl | split)
  | loopStmt stmts2 condition =>
    conv_lhs => rw [translateStmts.eq_def]
    conv_rhs => rw [translateStmts.eq_def]
    simp only [translateStmts.eq_2, bind, Except.bind]
    repeat (first | rfl | split)
  | conditional seq fallback =>
    conv_lhs => rw [translateStmts.eq_def]
    conv_rhs => rw [translateStmts.eq_def]
    simp only [translateStmts.eq_2, bind, Except.bind]
    repeat (first | rfl | split)
  | defineFn name args stmts2 =>
    conv_lhs => rw [translateStmts.eq_def]
    conv_rhs => rw [translateStmts.eq_def]
    simp only [translateStmts.eq_2, bind, Except.bind]
    repeat (first | rfl | split)

/-- The conditional-arm loop is its head arm alone followed by the remaining
arms with one unit of fuel less. -/
theorem translateCondSeq_cons (fns : List Function) (l : List (Str × Bool)) (n : Nat)
    (arm : AstNode × List Stmt) (rest : List (AstNode × List Stmt))
    (js : List Nat) (st : TransSt) :
    translateCondSeq fns l (n + 2) (arm :: rest) js st =
      (translateCondSeq fns l (n + 2) [arm] js st).bind
        (fun r => translateCondSeq fns l (n + 1) rest r.1 r.2) := by
  have e2 : (n + 2 : Nat) = Nat.succ (Nat.succ n) := rfl
  have e1 : (n + 1 : Nat) = Nat.succ n := rfl
  rw [e2, e1]
  obtain ⟨cond, stmts2⟩ := arm
  conv_lhs => rw [translateCondSeq.eq_def]
  conv_rhs => rw [translateCondSeq.eq_def]
  simp only [translateCondSeq.eq_2, bind, Except.bind]
  repeat (first | rfl | split)

/-- Parser output for scenario S3 (stage lemma). -/
theorem s3_parse_eval : lexParse s3Src = .ok s3Stmts := rfl

set_option maxHeartbeats 1600000 in
theorem s3_stmt2 : translateStmts [printlnSig] [] 997
    [.conditional
      [(.binOp (.var "x".data) (.val (dint 1)) .eq,
        [.callFunc "println".data [.val (.string ['a'])]]),
       (.binOp (.var "x".data) (.val (dint 2)) .eq,
        [.callFunc "println".data [.val (.string ['b'])]])]
      [.callFunc "println".data [.val (.string ['c'])]]]
    [['x']] ⟨[.push (dint 2)], [], 1, [(['x'], [0])], [], [(0, 0)]⟩ =
    .ok ([['x']], ⟨[.push (dint 2), .push (dint 1), .compare 0 1 .Equal, .pop 1, .jumpCond 4 1,
      .pop 1, .push (.string ['a']), .call 0 false [1], .pop 0, .pop 1,
      .push (dint 2), .compare 0 1 .Equal, .pop 1, .jumpCond 4 1, .pop 1,
      .push (.string ['b']), .call 0 false [1], .pop 0, .pop 1,
      .push (.string ['c']), .call 0 false [1], .pop 0, .jump 4, .jump 14], [], 1,
      [(['x'], [0])], [], [(0, 0), (1, 1), (6, 1), (15, 1), (19, 1)]⟩) := by
  have hc1 : translateCondSeq [printlnSig] [] 996
      [(.binOp (.var "x".data) (.val (dint 1)) .eq,
        [.callFunc "println".data [.val (.string ['a'])]])] []
      ⟨[.push (dint 2)], [], 1, [(['x'], [0])], [], [(0, 0), (1, 1)]⟩ =
      .ok ([9], ⟨[.push (dint 2), .push (dint 1), .compare 0 1 .Equal, .pop 1, .jumpCond 4 1,
        .pop 1, .push (.string ['a']), .call 0 false [1], .pop 0, .pop 1], [], 1,
        [(['x'], [0])], [], [(0, 0), (1, 1), (6, 1)]⟩) := rfl
  have hc2 : translateCondSeq [printlnSig] [] 995
      [(.binOp (.var "x".data) (.val (dint 2)) .eq,
        [.callFunc "println".data [.val (.string ['b'])]])] [9]
      ⟨[.push (dint 2), .push (dint 1), .compare 0 1 .Equal, .pop 1, .jumpCond 4 1,
        .pop 1, .push (.string ['a']), .call 0 false [1], .pop 0, .pop 1], [], 1,
        [(['x'], [0])], [], [(0, 0), (1, 1), (6, 1)]⟩ =
      .ok ([9, 18], ⟨[.push (dint 2), .push (dint 1), .compare 0 1 .Equal, .pop 1, .jumpCond 4 1,
        .pop 1, .push (.string ['a']), .call 0 false [1], .pop 0, .pop 1,
        .push (dint 2), .compare 0 1 .Equal, .pop 1, .jumpCond 4 1, .pop 1,
        .push (.string ['b']), .call 0 false [1], .pop 0, .pop 1], [], 1,
        [(['x'], [0])], [], [(0, 0), (1, 1), (6, 1), (15, 1)]⟩) := rfl
  have hf : translateInternal [printlnSig] [] 996
      [.callFunc "println".data [.val (.string ['c'])]]
      ⟨[.push (dint 2), .push (dint 1), .compare 0 1 .Equal, .pop 1, .jumpCond 4 1,
        .pop 1, .push (.string ['a']), .call 0 false [1], .pop 0, .pop 1,
        .push (dint 2), .compare 0 1 .Equal, .pop 1, .jumpCond 4 1, .pop 1,
        .push (.string ['b']), .call 0 false [1], .pop 0, .pop 1], [], 1,
        [(['x'], [0])], [], [(0, 0), (1, 1), (6, 1), (15, 1)]⟩ =
      .ok ⟨[.push (dint 2), .push (dint 1), .compare 0 1 .Equal, .pop 1, .jumpCond 4 1,
        .pop 1, .push (.string ['a']), .call 0 false [1], .pop 0, .pop 1,
        .push (dint 2), .compare 0 1 .Equal, .pop 1, .jumpCond 4 1, .pop 1,
        .push (.string ['b']), .call 0 false [1], .pop 0, .pop 1,
        .push (.string ['c']), .call 0 false [1], .pop 0], [], 1,
        [(['x'], [0])], [], [(0, 0), (1, 1), (6, 1), (15, 1), (19, 1)]⟩ := rfl
  conv_lhs => rw [translateStmts.eq_def]
  dsimp only []
  simp only [List.cons_append, List.nil_append, List.length_cons, List.length_nil, Nat.reduceAdd]
  rw [translateCondSeq_cons [printlnSig] [] 994
    (.binOp (.var "x".data) (.val (dint 1)) .eq,
     [.callFunc "println".data [.val (.string ['a'])]])
    [(.binOp (.var "x".data) (.val (dint 2)) .eq,
      [.callFunc "println".data [.val (.string ['b'])]])] []
    ⟨[.push (dint 2)], [], 1, [(['x'], [0])], [], [(0, 0), (1, 1)]⟩]
  rw [hc1]
  simp only [bind, Except.bind]
  rw [hc2]
  simp only [bind, Except.bind]
  rw [hf]
  rfl

set_option maxHeartbeats 1600000 in
theorem s3_stmts_all : translateStmts [printlnSig] [] 998
    [.defineVar "x".data (.val (dint 2)) false,
     .conditional
      [(.binOp (.var "x".data) (.val (dint 1)) .eq,
        [.callFunc "println".data [.val (.string ['a'])]]),
       (.binOp (.var "x".data) (.val (dint 2)) .eq,
        [.callFunc "println".data [.val (.string ['b'])]])]
      [.callFunc "println".data [.val (.string ['c'])]]]
    [] TransSt.init =
    .ok ([['x']], ⟨[.push (dint 2), .push (dint 1), .compare 0 1 .Equal, .pop 1, .jumpCond 4 1,
      .pop 1, .push (.string ['a']), .call 0 false [1], .pop 0, .pop 1,
      .push (dint 2), .compare 0 1 .Equal, .pop 1, .jumpCond 4 1, .pop 1,
      .push (.string ['b']), .call 0 false [1], .pop 0, .pop 1,
      .push (.string ['c']), .call 0 false [1], .pop 0, .jump 4, .jump 14], [], 1,
      [(['x'], [0])], [], [(0, 0), (1, 1), (6, 1), (15, 1), (19, 1)]⟩) := by
  have h1 : translateStmts [printlnSig] [] 998
      [.defineVar "x".data (.val (dint 2)) false] [] TransSt.init =
      .ok ([['x']], ⟨[.push (dint 2)], [], 1, [(['x'], [0])], [], [(0, 0)]⟩) := rfl
  rw [translateStmts_cons [printlnSig] [] 996
    (.defineVar "x".data (.val (dint 2)) false)
    [.conditional
      [(.binOp (.var "x".data) (.val (dint 1)) .eq,
        [.callFunc "println".data [.val (.string ['a'])]]),
       (.binOp (.var "x".data) (.val (dint 2)) .eq,
        [.callFunc "println".data [.val (.string ['b'])]])]
      [.callFunc "println".data [.val (.string ['c'])]]]
    [] TransSt.init rfl]
  rw [h1]
  simp only [bind, Except.bind, Nat.reduceAdd]
  rw [s3_stmt2]

set_option maxHeartbeats 1600000 in
theorem s3_internal : translateInternal [printlnSig] [] 999
    [.defineVar "x".data (.val (dint 2)) false,
     .conditional
      [(.binOp (.var "x".data) (.val (dint 1)) .eq,
        [.callFunc "println".data [.val (.string ['a'])]]),
       (.binOp (.var "x".data) (.val (dint 2)) .eq,
        [.callFunc "println".data [.val (.string ['b'])]])]
      [.callFunc "println".data [.val (.string ['c'])]]]
    TransSt.init =
    .ok ⟨[.push (dint 2), .push (dint 1), .compare 0 1 .Equal, .pop 1, .jumpCond 4 1,
      .pop 1, .push (.string ['a']), .call 0 false [1], .pop 0, .pop 1,
      .push (dint 2), .compare 0 1 .Equal, .pop 1, .jumpCond 4 1, .pop 1,
      .push (.string ['b']), .call 0 false [1], .pop 0, .pop 1,
      .push (.string ['c']), .call 0 false [1], .pop 0, .jump 4, .jump 14, .pop 0], [], 0,
      [(['x'], [])], [], [(0, 0), (1, 1), (6, 1), (15, 1), (19, 1)]⟩ := by
  conv_lhs => rw [translateInternal.eq_def]
  dsimp only []
  rw [s3_stmts_all]
  simp only [bind, Except.bind]
  rfl

set_option maxHeartbeats 1600000 in
theorem s3_translate_evalLit : translate
    [.defineVar "x".data (.val (dint 2)) false,
     .conditional
      [(.binOp (.var "x".data) (.val (dint 1)) .eq,
        [.callFunc "println".data [.val (.string ['a'])]]),
       (.binOp (.var "x".data) (.val (dint 2)) .eq,
        [.callFunc "println".data [.val (.string ['b'])]])]
      [.callFunc "println".data [.val (.string ['c'])]]]
    [printlnSig] 1000 = .ok s3Code := by
  have hd : discoverFnDefs
      [.defineVar "x".data (.val (dint 2)) false,
       .conditional
        [(.binOp (.var "x".data) (.val (dint 1)) .eq,
          [.callFunc "println".data [.val (.string ['a'])]]),
         (.binOp (.var "x".data) (.val (dint 2)) .eq,
          [.callFunc "println".data [.val (.string ['b'])]])]
        [.callFunc "println".data [.val (.string ['c'])]]] =
      .ok ([] : List (Str × Bool)) := rfl
  conv_lhs => rw [translate.eq_def]
  dsimp only []
  rw [hd]
  simp only [bind, Except.bind]
  conv_lhs => rw [translateUnit.eq_def]
  dsimp only []
  rw [s3_internal]
  simp only [bind, Except.bind]
  rfl

set_option maxHeartbeats 1600000 in
/-- Translator output for scenario S3 (stage lemma). -/
theorem s3_translate_eval : translate s3Stmts [printlnSig] 1000 = .ok s3Code := by
  simp only [s3Stmts]
  exact s3_translate_evalLit

set_option maxHeartbeats 1600000 in
/-- C5 (failing input): for scenario S3 (`x = 2`, so the claim demands
exactly one `println("b")` call) the translated program instead calls
`println("a")` — the body of the branch whose condition is false — and then
aborts with a stack-underflow panic at the `Pop { offset: 1 }` emitted at
index 9, executed with only one value on the stack. -/
theorem c5_conditional_bug :
    compileProgram s3Src [printlnSig] = .ok s3Code ∧
    (run s3Code [printlnHost] 100).outcome = .panic .popUnderflow ∧
    (run s3Code [printlnHost] 100).trace = [(0, [.string ['a']])] ∧
    (run s3Code [printlnHost] 100).stack = [.bool false] := by
  refine ⟨?_, ?_, ?_, ?_⟩
  · simp only [compileProgram, s3_parse_eval, s3_translate_eval]
  · decide
  · decide
  · decide

/-- C6 (failing input): `1 >= 1` and `1 <= 1` both evaluate to `false`.
`Ge` is lowered as `Compare` with swapped operands and `expected = Less`
(index 3 of the tape), which tests strict `>`, so the claimed `a ≥ b`
semantics fails at `a = b = 1`; symmetrically for `Le`. -/
theorem c6_ge_le_bug :
    compileProgram geLeSrc [printlnSig] = .ok geLeCode ∧
    geLeCode.get? 3 = some (.compare 2 1 .Less) ∧
    geLeCode.get? 12 = some (.compare 2 1 .Greater) ∧
    (Dec.ofInt 1).cmp (Dec.ofInt 1) = .Equal ∧
    (run geLeCode [printlnHost] 100).outcome = .ok ∧
    (run geLeCode [printlnHost] 100).trace =
      [(0, [.string fmtStr, .bool false]), (0, [.string fmtStr, .bool false])] := by
  refine ⟨?_, ?_, ?_, ?_, ?_, ?_⟩ <;> decide

/-- C8 (failing input): lexing `1.5` does not produce the Number token 1.5
— the digit collector stops at the dot (the closure returns true for `.`),
so `1` is tokenised as a Number and the stray `.` then raises the
unknown-character error; a digit run can therefore never contain a dot and
the more-than-one-dot diagnostic is unreachable.  Dotless digit runs lex
normally (`15` becomes the Number token 15). -/
theorem c8_numeric_literal_bug :
    lex "1.5".data = .error (.unexpectedChar '.' ⟨2, 3⟩) ∧
    lex "15".data = .ok [⟨.number (Dec.ofInt 15), ⟨1, 2⟩⟩] := by
  refine ⟨?_, ?_⟩ <;> decide

/-- C9 (counterexample): a character-sequence literal opened with `"` whose
closing quote is missing is not a lex error — lexing `"abc` succeeds and
returns a CharSeq token holding `abc`. -/
theorem c9_unterminated_counterexample :
    lex "\"abc".data = .ok [⟨.charSeq "abc".data, ⟨1, 4⟩⟩] := by
  decide

/-- C7 (counterexample): a call in expression position to the non-variadic
one-parameter host function `h` with two arguments compiles without any
argument-count (or other) error. -/
theorem c7_argcount_counterexample :
    hSig.params.length = 1 ∧
    hSig.varLen = false ∧
    compileProgram c7ExprSrc [hSig] = .ok c7ExprCode := by
  refine ⟨?_, ?_, ?_⟩ <;> decide

/-- C10: the parser accepts unary `!` (producing a `UnaryOp` node inside a
parseable program), but translating that program hits the `todo!()` in the
`AstNode::UnaryOp` arm of `translate_node` — modelled as the distinguished
`todoUnaryNot` outcome — rather than returning bytecode or a structured
compile error. -/
theorem c10_unary_not_todo :
    lexParse c10Src =
      .ok [.defineVar "x".data (.unaryOp (.val (.bool true)) .not) false] ∧
    compileProgram c10Src [printlnSig] = .error (.transErr .todoUnaryNot) := by
  constructor
  · rfl
  · decide

/-- C3 (counterexample): `try_parse_bin_op` on `a - b - c` does not return
the left-associated tree `(a - b) - c`; it returns `c - (a - b)` — the
operand-draining order of the combination loop swaps the final operands. -/
theorem c3_precedence_counterexample :
    parseExpr "a - b - c".data =
      some (.binOp (.var ['c']) (.binOp (.var ['a']) (.var ['b']) .sub) .sub) ∧
    AstNode.binOp (.var ['c']) (.binOp (.var ['a']) (.var ['b']) .sub) .sub ≠
      .binOp (.binOp (.var ['a']) (.var ['b']) .sub) (.var ['c']) .sub := by
  refine ⟨rfl, ?_⟩
  simp

/-- C3 (amended): higher-priority operators are hoisted below
lower-priority ones — `1 + 2 * 3` parses as `1 + (2 * 3)` — but
equal-priority chains are not grouped left-to-right: `a - b - c` parses as
`c - (a - b)`. -/
theorem c3_precedence_amended :
    parseExpr "1 + 2 * 3".data =
      some (.binOp (.val (dint 1))
        (.binOp (.val (dint 2)) (.val (dint 3)) .mul) .add) ∧
    parseExpr "a - b - c".data =
      some (.binOp (.var ['c']) (.binOp (.var ['a']) (.var ['b']) .sub) .sub) :=
  ⟨rfl, rfl⟩

/-- Parser output for the parity probe program (stage lemma). -/
theorem c1_parse_eval : lexParse c1Src = .ok c1Stmts := rfl

set_option maxHeartbeats 1600000 in
theorem c1_stmt3 : translateStmts [printlnSig] [] 996
    [.conditional
      [(.binOp (.var "x".data) (.val (dint 1)) .eq,
        [.defineVar "x".data (.var "y".data) true])] []]
    [['x'], ['y']]
    ⟨[.push (dint 1), .push (dint 2)], [], 2, [(['x'], [0]), (['y'], [1])], [],
     [(0, 0), (1, 1)]⟩ =
    .ok ([['x'], ['y']],
      ⟨[.push (dint 1), .push (dint 2), .push (dint 1), .compare 0 2 .Equal, .pop 1,
        .jumpCond 2 2, .pop 1, .mov 1 0, .pop 1, .jump 1], [], 2,
       [(['x'], [0]), (['y'], [1])], [], [(0, 0), (1, 1), (2, 2), (7, 2)]⟩) := by
  have hc : translateCondSeq [printlnSig] [] 995
      [(.binOp (.var "x".data) (.val (dint 1)) .eq,
        [.defineVar "x".data (.var "y".data) true])] []
      ⟨[.push (dint 1), .push (dint 2)], [], 2, [(['x'], [0]), (['y'], [1])], [],
       [(0, 0), (1, 1), (2, 2)]⟩ =
      .ok ([8],
        ⟨[.push (dint 1), .push (dint 2), .push (dint 1), .compare 0 2 .Equal, .pop 1,
          .jumpCond 2 2, .pop 1, .mov 1 0, .pop 1], [], 2,
         [(['x'], [0]), (['y'], [1])], [], [(0, 0), (1, 1), (2, 2), (7, 2)]⟩) := rfl
  have hf : translateInternal [printlnSig] [] 995 []
      ⟨[.push (dint 1), .push (dint 2), .push (dint 1), .compare 0 2 .Equal, .pop 1,
        .jumpCond 2 2, .pop 1, .mov 1 0, .pop 1], [], 2,
       [(['x'], [0]), (['y'], [1])], [], [(0, 0), (1, 1), (2, 2), (7, 2)]⟩ =
      .ok ⟨[.push (dint 1), .push (dint 2), .push (dint 1), .compare 0 2 .Equal, .pop 1,
        .jumpCond 2 2, .pop 1, .mov 1 0, .pop 1], [], 2,
       [(['x'], [0]), (['y'], [1])], [], [(0, 0), (1, 1), (2, 2), (7, 2)]⟩ := rfl
  conv_lhs => rw [translateStmts.eq_def]
  dsimp only []
  simp only [List.cons_append, List.nil_append, List.length_cons, List.length_nil,
    Nat.reduceAdd]
  rw [hc]
  simp only [bind, Except.bind]
  rw [hf]
  rfl

set_option maxHeartbeats 1600000 in
theorem c1_stmts_all : translateStmts [printlnSig] [] 998
    [.defineVar "x".data (.val (dint 1)) false,
     .defineVar "y".data (.val (dint 2)) false,
     .conditional
      [(.binOp (.var "x".data) (.val (dint 1)) .eq,
        [.defineVar "x".data (.var "y".data) true])] []]
    [] TransSt.init =
    .ok ([['x'], ['y']],
      ⟨[.push (dint 1), .push (dint 2), .push (dint 1), .compare 0 2 .Equal, .pop 1,
        .jumpCond 2 2, .pop 1, .mov 1 0, .pop 1, .jump 1], [], 2,
       [(['x'], [0]), (['y'], [1])], [], [(0, 0), (1, 1), (2, 2), (7, 2)]⟩) := by
  have h1 : translateStmts [printlnSig] [] 998
      [.defineVar "x".data (.val (dint 1)) false] [] TransSt.init =
      .ok ([['x']], ⟨[.push (dint 1)], [], 1, [(['x'], [0])], [], [(0, 0)]⟩) := rfl
  have h2 : translateStmts [printlnSig] [] 997
      [.defineVar "y".data (.val (dint 2)) false] [['x']]
      ⟨[.push (dint 1)], [], 1, [(['x'], [0])], [], [(0, 0)]⟩ =
      .ok ([['x'], ['y']],
        ⟨[.push (dint 1), .push (dint 2)], [], 2, [(['x'], [0]), (['y'], [1])], [],
         [(0, 0), (1, 1)]⟩) := rfl
  rw [translateStmts_cons [printlnSig] [] 996
    (.defineVar "x".data (.val (dint 1)) false)
    [.defineVar "y".data (.val (dint 2)) false,
     .conditional
      [(.binOp (.var "x".data) (.val (dint 1)) .eq,
        [.defineVar "x".data (.var "y".data) true])] []]
    [] TransSt.init rfl]
  rw [h1]
  simp only [bind, Except.bind, Nat.reduceAdd]
  rw [translateStmts_cons [printlnSig] [] 995
    (.defineVar "y".data (.val (dint 2)) false)
    [.conditional
      [(.binOp (.var "x".data) (.val (dint 1)) .eq,
        [.defineVar "x".data (.var "y".data) true])] []]
    [['x']] ⟨[.push (dint 1)], [], 1, [(['x'], [0])], [], [(0, 0)]⟩ rfl]
  rw [h2]
  simp only [bind, Except.bind, Nat.reduceAdd]
  rw [c1_stmt3]

set_option maxHeartbeats 1600000 in
theorem c1_internal : translateInternal [printlnSig] [] 999
    [.defineVar "x".data (.val (dint 1)) false,
     .defineVar "y".data (.val (dint 2)) false,
     .conditional
      [(.binOp (.var "x".data) (.val (dint 1)) .eq,
        [.defineVar "x".data (.var "y".data) true])] []]
    TransSt.init =
    .ok ⟨[.push (dint 1), .push (dint 2), .push (dint 1), .compare 0 2 .Equal, .pop 1,
      .jumpCond 2 2, .pop 1, .mov 1 0, .pop 1, .jump 1, .pop 0, .pop 0], [], 0,
     [(['x'], []), (['y'], [])], [], [(0, 0), (1, 1), (2, 2), (7, 2)]⟩ := by
  conv_lhs => rw [translateInternal.eq_def]
  dsimp only []
  rw [c1_stmts_all]
  simp only [bind, Except.bind]
  rfl

set_option maxHeartbeats 1600000 in
theorem c1_unit_eval :
    translateUnit [printlnSig] [] 1000 c1Stmts = .ok (⟨c1Code, [], c1Marks⟩, []) := by
  simp only [c1Stmts, c1Code, c1Marks]
  conv_lhs => rw [translateUnit.eq_def]
  dsimp only []
  rw [c1_internal]
  simp only [bind, Except.bind]
  rfl

set_option maxHeartbeats 1600000 in
theorem c1_translate_eval : translate c1Stmts [printlnSig] 1000 = .ok c1Code := by
  have hd : discoverFnDefs
      [.defineVar "x".data (.val (dint 1)) false,
       .defineVar "y".data (.val (dint 2)) false,
       .conditional
        [(.binOp (.var "x".data) (.val (dint 1)) .eq,
          [.defineVar "x".data (.var "y".data) true])] []] =
      .ok ([] : List (Str × Bool)) := rfl
  simp only [c1Stmts, c1Code]
  conv_lhs => rw [translate.eq_def]
  dsimp only []
  rw [hd]
  simp only [bind, Except.bind]
  conv_lhs => rw [translateUnit.eq_def]
  dsimp only []
  rw [c1_internal]
  simp only [bind, Except.bind]
  rfl

/-- Function definitions discovered in the parity probe program: none. -/
theorem c1_fndefs : discoverFnDefs c1Stmts = .ok ([] : List (Str × Bool)) := rfl

set_option maxHeartbeats 1600000 in
/-- C1 (failing input): the stack-parity invariant fails on
`let x = 1 let y = 2 if x == 1 { x = y }`.  The translator's ghost marks
record simulated depth 2 for the instruction at index 7 (the `Mov` that
starts the branch-body statement `x = y`), but when the VM executes index 7
the operand stack holds 3 values: the condition temporary is still on the
stack because the taken `JumpCond` skips the cleanup `Pop` emitted for it. -/
theorem c1_stack_parity_bug :
    (compileUnit c1Src [printlnSig]).map TranslationOutput.main = .ok c1Code ∧
    (compileUnit c1Src [printlnSig]).map TranslationOutput.marks = .ok c1Marks ∧
    compileProgram c1Src [printlnSig] = .ok c1Code ∧
    (run c1Code [printlnHost] 100).outcome = .ok ∧
    (run c1Code [printlnHost] 100).visits = c1Visits ∧
    c1Marks.filter (fun m => m.1 == 7) = [(7, 2)] ∧
    c1Visits.filter (fun v => v.1 == 7) = [(7, 3)] := by
  refine ⟨?_, ?_, ?_, ?_, ?_, ?_, ?_⟩
  · simp only [compileUnit, c1_parse_eval, c1_fndefs, c1_unit_eval, Except.map]
  · simp only [compileUnit, c1_parse_eval, c1_fndefs, c1_unit_eval, Except.map]
  · simp only [compileProgram, c1_parse_eval, c1_translate_eval]
  · decide
  · decide
  · decide
  · decide

/-- Parser output for the peephole probe program (stage lemma). -/
theorem c2_parse_eval : lexParse c2Src = .ok c2Stmts := rfl

set_option maxHeartbeats 1600000 in
theorem c2_stmt2 : translateStmts [printlnSig] [] 998
    [.conditional [(.var "b".data, [.defineVar "x".data (.val (dint 5)) false])]
      [.callFunc "println".data [.val (.string ['f'])]]]
    [['b']] ⟨[.push (.bool true)], [], 1, [(['b'], [0])], [], [(0, 0)]⟩ =
    .ok ([['b']],
      ⟨[.push (.bool true), .jumpCond 2 0, .push (dint 5), .pop 0, .push (.string ['f']),
        .call 0 false [1], .pop 0, .jump 3], [], 1, [(['b'], [0]), (['x'], [])], [],
       [(0, 0), (2, 1), (2, 1), (4, 1)]⟩) := by
  have hc : translateCondSeq [printlnSig] [] 997
      [(.var "b".data, [.defineVar "x".data (.val (dint 5)) false])] []
      ⟨[.push (.bool true)], [], 1, [(['b'], [0])], [], [(0, 0), (1, 1)]⟩ =
      .ok ([4],
        ⟨[.push (.bool true), .jumpCond 2 0, .push (dint 5), .pop 0], [], 1,
         [(['b'], [0]), (['x'], [])], [], [(0, 0), (2, 1), (2, 1)]⟩) := rfl
  have hf : translateInternal [printlnSig] [] 997
      [.callFunc "println".data [.val (.string ['f'])]]
      ⟨[.push (.bool true), .jumpCond 2 0, .push (dint 5), .pop 0], [], 1,
       [(['b'], [0]), (['x'], [])], [], [(0, 0), (2, 1), (2, 1)]⟩ =
      .ok ⟨[.push (.bool true), .jumpCond 2 0, .push (dint 5), .pop 0, .push (.string ['f']),
        .call 0 false [1], .pop 0], [], 1, [(['b'], [0]), (['x'], [])], [],
       [(0, 0), (2, 1), (2, 1), (4, 1)]⟩ := rfl
  conv_lhs => rw [translateStmts.eq_def]
  dsimp only []
  simp only [List.cons_append, List.nil_append, List.length_cons, List.length_nil,
    Nat.reduceAdd]
  rw [hc]
  simp only [bind, Except.bind]
  rw [hf]
  rfl

set_option maxHeartbeats 1600000 in
theorem c2_stmts_all : translateStmts [printlnSig] [] 999
    [.defineVar "b".data (.val (.bool true)) false,
     .conditional [(.var "b".data, [.defineVar "x".data (.val (dint 5)) false])]
      [.callFunc "println".data [.val (.string ['f'])]],
     .callFunc "println".data [.val (.string ['A'])],
     .callFunc "println".data [.val (.string ['B'])]]
    [] TransSt.init =
    .ok ([['b']],
      ⟨[.push (.bool true), .jumpCond 2 0, .push (dint 5), .pop 0, .push (.string ['f']),
        .call 0 false [1], .pop 0, .jump 3, .push (.string ['A']), .call 0 false [1],
        .pop 0, .push (.string ['B']), .call 0 false [1], .pop 0], [], 1,
       [(['b'], [0]), (['x'], [])], [],
       [(0, 0), (2, 1), (2, 1), (4, 1), (8, 1), (11, 1)]⟩) := by
  have h1 : translateStmts [printlnSig] [] 999
      [.defineVar "b".data (.val (.bool true)) false] [] TransSt.init =
      .ok ([['b']], ⟨[.push (.bool true)], [], 1, [(['b'], [0])], [], [(0, 0)]⟩) := rfl
  have h3 : translateStmts [printlnSig] [] 997
      [.callFunc "println".data [.val (.string ['A'])]] [['b']]
      ⟨[.push (.bool true), .jumpCond 2 0, .push (dint 5), .pop 0, .push (.string ['f']),
        .call 0 false [1], .pop 0, .jump 3], [], 1, [(['b'], [0]), (['x'], [])], [],
       [(0, 0), (2, 1), (2, 1), (4, 1)]⟩ =
      .ok ([['b']],
        ⟨[.push (.bool true), .jumpCond 2 0, .push (dint 5), .pop 0, .push (.string ['f']),
          .call 0 false [1], .pop 0, .jump 3, .push (.string ['A']), .call 0 false [1],
          .pop 0], [], 1, [(['b'], [0]), (['x'], [])], [],
         [(0, 0), (2, 1), (2, 1), (4, 1), (8, 1)]⟩) := rfl
  have h4 : translateStmts [printlnSig] [] 996
      [.callFunc "println".data [.val (.string ['B'])]] [['b']]
      ⟨[.push (.bool true), .jumpCond 2 0, .push (dint 5), .pop 0, .push (.string ['f']),
        .call 0 false [1], .pop 0, .jump 3, .push (.string ['A']), .call 0 false [1],
        .pop 0], [], 1, [(['b'], [0]), (['x'], [])], [],
       [(0, 0), (2, 1), (2, 1), (4, 1), (8, 1)]⟩ =
      .ok ([['b']],
        ⟨[.push (.bool true), .jumpCond 2 0, .push (dint 5), .pop 0, .push (.string ['f']),
          .call 0 false [1], .pop 0, .jump 3, .push (.string ['A']), .call 0 false [1],
          .pop 0, .push (.string ['B']), .call 0 false [1], .pop 0], [], 1,
         [(['b'], [0]), (['x'], [])], [],
         [(0, 0), (2, 1), (2, 1), (4, 1), (8, 1), (11, 1)]⟩) := rfl
  rw [translateStmts_cons [printlnSig] [] 997
    (.defineVar "b".data (.val (.bool true)) false)
    [.conditional [(.var "b".data, [.defineVar "x".data (.val (dint 5)) false])]
      [.callFunc "println".data [.val (.string ['f'])]],
     .callFunc "println".data [.val (.string ['A'])],
     .callFunc "println".data [.val (.string ['B'])]]
    [] TransSt.init rfl]
  rw [h1]
  simp only [bind, Except.bind, Nat.reduceAdd]
  rw [translateStmts_cons [printlnSig] [] 996
    (.conditional [(.var "b".data, [.defineVar "x".data (.val (dint 5)) false])]
      [.callFunc "println".data [.val (.string ['f'])]])
    [.callFunc "println".data [.val (.string ['A'])],
     .callFunc "println".data [.val (.string ['B'])]]
    [['b']] ⟨[.push (.bool true)], [], 1, [(['b'], [0])], [], [(0, 0)]⟩ rfl]
  rw [c2_stmt2]
  simp only [bind, Except.bind, Nat.reduceAdd]
  rw [translateStmts_cons [printlnSig] [] 995
    (.callFunc "println".data [.val (.string ['A'])])
    [.callFunc "println".data [.val (.string ['B'])]]
    [['b']]
    ⟨[.push (.bool true), .jumpCond 2 0, .push (dint 5), .pop 0, .push (.string ['f']),
      .call 0 false [1], .pop 0, .jump 3], [], 1, [(['b'], [0]), (['x'], [])], [],
     [(0, 0), (2, 1), (2, 1), (4, 1)]⟩ rfl]
  rw [h3]
  simp only [bind, Except.bind, Nat.reduceAdd]
  rw [h4]

set_option maxHeartbeats 1600000 in
theorem c2_internalLit : translateInternal [printlnSig] [] 1000
    [.defineVar "b".data (.val (.bool true)) false,
     .conditional [(.var "b".data, [.defineVar "x".data (.val (dint 5)) false])]
      [.callFunc "println".data [.val (.string ['f'])]],
     .callFunc "println".data [.val (.string ['A'])],
     .callFunc "println".data [.val (.string ['B'])]]
    TransSt.init =
    .ok ⟨[.push (.bool true), .jumpCond 2 0, .push (dint 5), .pop 0, .push (.string ['f']),
      .call 0 false [1], .pop 0, .jump 3, .push (.string ['A']), .call 0 false [1],
      .pop 0, .push (.string ['B']), .call 0 false [1], .pop 0, .pop 0], [], 0,
     [(['b'], []), (['x'], [])], [],
     [(0, 0), (2, 1), (2, 1), (4, 1), (8, 1), (11, 1)]⟩ := by
  conv_lhs => rw [translateInternal.eq_def]
  dsimp only []
  rw [c2_stmts_all]
  simp only [bind, Except.bind]
  rfl

set_option maxHeartbeats 1600000 in
/-- Raw tape of the peephole probe program, stated on the parsed fixture
(stage lemma). -/
theorem c2_internal : translateInternal [printlnSig] [] 1000 c2Stmts TransSt.init =
    .ok ⟨[.push (.bool true), .jumpCond 2 0, .push (dint 5), .pop 0, .push (.string ['f']),
      .call 0 false [1], .pop 0, .jump 3, .push (.string ['A']), .call 0 false [1],
      .pop 0, .push (.string ['B']), .call 0 false [1], .pop 0, .pop 0], [], 0,
     [(['b'], []), (['x'], [])], [],
     [(0, 0), (2, 1), (2, 1), (4, 1), (8, 1), (11, 1)]⟩ := by
  simp only [c2Stmts]
  exact c2_internalLit

set_option maxHeartbeats 1600000 in
/-- Raw (pre-peephole) tape of the peephole probe program (stage lemma). -/
theorem c2_raw_eval :
    (translateInternal [printlnSig] [] 1000 c2Stmts TransSt.init).map TransSt.code =
      .ok c2Raw := by
  rw [c2_internal]
  rfl

/-- Function definitions discovered in the peephole probe program: none. -/
theorem c2_fndefs : discoverFnDefs c2Stmts = .ok ([] : List (Str × Bool)) := rfl

set_option maxHeartbeats 1600000 in
/-- C2 (failing input): on `c2Src` the peephole pass changes the
observable host-call sequence.  The raw tape performs no host call before
aborting (the taken `JumpCond` lands on the `Pop` of the removable
`Push`/`Pop` pair, destroying the variable the later `Call` reads), while
the optimized tape — whose `JumpCond` was retargeted past the removed pair
— calls `println("f")` before aborting. -/
theorem c2_peephole_counterexample :
    compileRaw c2Src [printlnSig] = .ok c2Raw ∧
    optimize c2Raw = c2Opt ∧
    (run c2Raw [printlnHost] 100).trace = [] ∧
    (run c2Opt [printlnHost] 100).trace = [(0, [.string ['f']])] ∧
    (run c2Raw [printlnHost] 100).outcome = .panic .indexOOB ∧
    (run c2Opt [printlnHost] 100).outcome = .panic .indexOOB ∧
    (run c2Opt [printlnHost] 100).trace ≠ (run c2Raw [printlnHost] 100).trace := by
  refine ⟨?_, ?_, ?_, ?_, ?_, ?_, ?_⟩
  · simp only [compileRaw, c2_parse_eval, c2_fndefs, c2_internal, c2Raw]
  · decide
  · decide
  · decide
  · decide
  · decide
  · decide

end Engine


